import Mathlib

/-!
# Verification of `scripts/validate-templates.py`

A shallow embedding of the template-validation script.  Parsed JSON/YAML
documents are modelled by the inductive type `Yaml`; Python code that can
raise an exception is modelled in the `Py` monad (`Except String`), where
`.error` marks an uncaught Python exception (`TypeError`, `AttributeError`,
...).  File reads are modelled by their outcome: `none` for a missing file,
`some (.error e)` for a file whose parse raises the library's syntax error
with message `e`, and `some (.ok v)` for a file parsing to the value `v`.

Modelling notes, all marked at their definition sites:
* `\d` and `[a-z0-9]` character classes are modelled over ASCII
  (Python's `re` also accepts non-ASCII Unicode digits for `\d`;
  no claim depends on non-ASCII input).
* Python `==` additionally identifies `True`/`False` with `1`/`0`; this is
  modelled in `pyEq` for scalars.  Container equality is modelled
  structurally (Python would also apply the bool/int identification inside
  containers and compare dicts without key order; no claim exercises these).
* The iteration order of a Python `set` (used when the script formats
  duplicate-name sets into messages) is not fixed by the language: with
  hash randomization it can change from process to process.  The embedding
  therefore takes the order as a parameter `sord` applied to the
  first-occurrence deduplication of the duplicate list; any permutation is
  an admissible behaviour of the source program (`validSetOrder`).
-/

/-- A parsed JSON/YAML document (`json.load` / `yaml.safe_load` result).
String keys suffice for every document the claims quantify over. -/
inductive Yaml where
  | null
  | bool (b : Bool)
  | int (n : Int)
  | str (s : String)
  | arr (xs : List Yaml)
  | obj (kvs : List (String × Yaml))

mutual

/-- Structural equality on parsed values. -/
def yamlBeq : Yaml → Yaml → Bool
  | .null, .null => true
  | .bool a, .bool b => a == b
  | .int a, .int b => a == b
  | .str a, .str b => a == b
  | .arr xs, .arr ys => yamlBeqList xs ys
  | .obj xs, .obj ys => yamlBeqKvs xs ys
  | _, _ => false

def yamlBeqList : List Yaml → List Yaml → Bool
  | [], [] => true
  | x :: xs, y :: ys => yamlBeq x y && yamlBeqList xs ys
  | _, _ => false

def yamlBeqKvs : List (String × Yaml) → List (String × Yaml) → Bool
  | [], [] => true
  | kv :: xs, kw :: ys => kv.1 == kw.1 && yamlBeq kv.2 kw.2 && yamlBeqKvs xs ys
  | _, _ => false

end

mutual

/-- A computable size measure, used as recursion fuel for rendering. -/
def yamlSize : Yaml → Nat
  | .arr xs => 1 + yamlSizeList xs
  | .obj kvs => 1 + yamlSizeKvs kvs
  | _ => 1

def yamlSizeList : List Yaml → Nat
  | [] => 0
  | x :: xs => yamlSize x + yamlSizeList xs

def yamlSizeKvs : List (String × Yaml) → Nat
  | [] => 0
  | kv :: xs => yamlSize kv.2 + yamlSizeKvs xs

end

/-- Python `==` on parsed values. Scalars: `True == 1`, `False == 0`;
containers are compared structurally (see modelling notes above). -/
def pyEq (a b : Yaml) : Bool :=
  match a, b with
  | .int n, .bool b => n == (if b then (1 : Int) else 0)
  | .bool b, .int n => (if b then (1 : Int) else 0) == n
  | a, b => yamlBeq a b

/-- Python `list.count x`: the number of elements `== x`. -/
def countPy (l : List Yaml) (x : Yaml) : Nat :=
  (l.filter (fun e => pyEq e x)).length

/-- `[name for name in names if names.count(name) > 1]`. -/
def dupList (names : List Yaml) : List Yaml :=
  names.filter (fun n => countPy names n > 1)

/-- First-occurrence deduplication, as performed by building a Python `set`
from a list (insertion keeps the first representative of each `==` class). -/
def dedupPyGo (seen : List Yaml) : List Yaml → List Yaml
  | [] => []
  | x :: rest =>
    if seen.any (fun s => pyEq s x) then dedupPyGo seen rest
    else x :: dedupPyGo (seen ++ [x]) rest

def dedupPy (l : List Yaml) : List Yaml := dedupPyGo [] l

/-- An apostrophe, kept out of string literals. -/
def apos : String := "\x27"

/-- Python `repr`, with recursion fuel (`yamlSize v` always suffices, and
only concrete values are ever rendered inside the claims). -/
def pyReprF : Nat → Yaml → String
  | 0, _ => ""
  | _ + 1, .null => "None"
  | _ + 1, .bool true => "True"
  | _ + 1, .bool false => "False"
  | _ + 1, .int n => toString n
  | _ + 1, .str s => apos ++ s ++ apos
  | fuel + 1, .arr xs => "[" ++ String.intercalate ", " (xs.map (pyReprF fuel)) ++ "]"
  | fuel + 1, .obj kvs =>
    "\x7b" ++ String.intercalate ", " (kvs.map (fun kv => apos ++ kv.1 ++ apos ++ ": " ++ pyReprF fuel kv.2)) ++ "\x7d"

def pyRepr (v : Yaml) : String := pyReprF (yamlSize v) v

/-- Python `str()` of a parsed value (as interpolated by f-strings). -/
def pyStr (v : Yaml) : String :=
  match v with
  | .str s => s
  | v => pyRepr v

/-- `f"{set(l)}"` for a non-empty list of already-deduplicated values. -/
def renderSet (l : List Yaml) : String :=
  "\x7b" ++ String.intercalate ", " (l.map pyRepr) ++ "\x7d"

/-- An admissible iteration order of a Python set: any permutation of the
insertion-deduplicated element list. -/
def validSetOrder (sord : List Yaml → List Yaml) : Prop :=
  ∀ l : List Yaml, (sord l).Perm l

/-- `Py α`: a Python computation that either returns `α` or raises an
uncaught exception carrying a description. -/
abbrev Py (α : Type) := Except String α

/-- Lookup in a parsed object (Python dicts have unique keys; first match). -/
def objLookup (kvs : List (String × Yaml)) (k : String) : Option Yaml :=
  (kvs.find? (fun kv => kv.1 == k)).map (·.2)

def hasKeyKvs (kvs : List (String × Yaml)) (k : String) : Bool :=
  kvs.any (fun kv => kv.1 == k)

def Yaml.isDict : Yaml → Bool
  | .obj _ => true
  | _ => false

/-- Python substring test `needle in hay` on character lists. -/
def subStr (needle : List Char) : List Char → Bool
  | [] => needle.isEmpty
  | c :: rest => needle.isPrefixOf (c :: rest) || subStr needle rest

/-- Python `str.replace(pat, rep)`: replace every non-overlapping
occurrence, scanning left to right.  Fuel is the character count, which
always suffices for a non-empty pattern (each step consumes at least one
character); the script only ever replaces `"-"`. -/
def pyReplaceGo (pat rep : List Char) : Nat → List Char → List Char
  | 0, cs => cs
  | _ + 1, [] => []
  | fuel + 1, c :: rest =>
    if pat.isPrefixOf (c :: rest) then
      rep ++ pyReplaceGo pat rep fuel ((c :: rest).drop pat.length)
    else c :: pyReplaceGo pat rep fuel rest

def pyReplace (s pat rep : String) : String :=
  if pat.isEmpty then s
  else String.mk (pyReplaceGo pat.data rep.data s.data.length s.data)

/-- Python `k in v` (membership test).  Raises `TypeError` on values that
are not iterable (`None`, numbers, booleans). -/
def pyContains (k : String) : Yaml → Py Bool
  | .obj kvs => .ok (hasKeyKvs kvs k)
  | .arr xs => .ok (xs.any (fun x => pyEq x (.str k)))
  | .str s => .ok (subStr k.data s.data)
  | .null => .error "TypeError: argument of type NoneType is not iterable"
  | .bool _ => .error "TypeError: argument of type bool is not iterable"
  | .int _ => .error "TypeError: argument of type int is not iterable"

/-- Python `v[k]` for a string key: dict lookup; `TypeError` otherwise
(the script only subscripts after a successful membership test, so the
dict lookup never raises `KeyError` on the guarded paths). -/
def pySubscript (v : Yaml) (k : String) : Py Yaml :=
  match v with
  | .obj kvs =>
    match objLookup kvs k with
    | some w => .ok w
    | none => .error ("KeyError: " ++ k)
  | _ => .error "TypeError: value is not subscriptable by a string"

/-- Python `v.get(k)` (`None` default): only dicts have `.get`. -/
def pyGet (v : Yaml) (k : String) : Py Yaml :=
  match v with
  | .obj kvs => .ok ((objLookup kvs k).getD .null)
  | _ => .error "AttributeError: value has no attribute get"

/-- `d.get(k, default)` on a value already known to be a dict. -/
def objGetD (kvs : List (String × Yaml)) (k : String) (d : Yaml) : Yaml :=
  (objLookup kvs k).getD d

/-- Python iteration `for x in v`: lists yield elements, strings yield
1-character strings, dicts yield their keys; other values raise. -/
def pyIter : Yaml → Py (List Yaml)
  | .arr xs => .ok xs
  | .str s => .ok (s.data.map (fun c => .str (String.mk [c])))
  | .obj kvs => .ok (kvs.map (fun kv => .str kv.1))
  | _ => .error "TypeError: value is not iterable"

/-- Force a value to a Python `str`, as `re.match`/`.rstrip`/`.endswith`
implicitly do (they raise `TypeError`/`AttributeError` otherwise). -/
def asStr : Yaml → Py String
  | .str s => .ok s
  | _ => .error "TypeError: expected string or bytes-like object"

/-- `ValidationResult` from the script: three ordered message sequences. -/
structure ValidationResult where
  template_name : String
  errors : List String
  warnings : List String
  passes : List String
deriving DecidableEq, Repr

def ValidationResult.init (name : String) : ValidationResult :=
  ⟨name, [], [], []⟩

def ValidationResult.add_error (r : ValidationResult) (m : String) : ValidationResult :=
  { r with errors := r.errors ++ [m] }

def ValidationResult.add_warning (r : ValidationResult) (m : String) : ValidationResult :=
  { r with warnings := r.warnings ++ [m] }

def ValidationResult.add_pass (r : ValidationResult) (m : String) : ValidationResult :=
  { r with passes := r.passes ++ [m] }

def ValidationResult.is_valid (r : ValidationResult) : Bool :=
  r.errors.length == 0

/-! ## Regular-expression and string checks, as the script performs them -/

/-- `re.match(pattern, s)` with a pattern of the form `^body$`: Python's
`$` matches at the end of the string or just before one final newline, so
the match succeeds iff `body` matches `s` with a single trailing `'\n'`
removed first. -/
def stripNL (cs : List Char) : List Char :=
  match cs.reverse with
  | '\n' :: rest => rest.reverse
  | _ => cs

/-- The character class `[a-z0-9 ]` (ASCII, like the source pattern). -/
def isNameChar (c : Char) : Bool :=
  c.isLower || c.isDigit || c == ' '

/-- Split a character list on `'.'` (each `'.'` ends a group). -/
def splitOnDot : List Char → List (List Char)
  | [] => [[]]
  | c :: rest =>
    match splitOnDot rest with
    | [] => [[]]
    | g :: gs => if c = '.' then [] :: g :: gs else (c :: g) :: gs

/-- One or more ASCII digits (`\d+` over ASCII). -/
def isNum (l : List Char) : Bool :=
  !l.isEmpty && l.all Char.isDigit

/-- `\d+\.\d+\.\d+` exactly covering `cs`. -/
def semverCore (cs : List Char) : Bool :=
  match splitOnDot cs with
  | [a, b, c] => isNum a && isNum b && isNum c
  | _ => false

/-- `re.match(r'^\d+\.\d+\.\d+$', s)` as executed by the script
(accepts one trailing newline, per Python `$`). -/
def matchSemverPy (s : String) : Bool :=
  semverCore (stripNL s.data)

/-- Modelled from the spec's words (refinement reference): a *full* match
of `^\d+\.\d+\.\d+$` — no extra characters anywhere, including trailing
ones. Used to compare the spec's claim with the source's `re.match`. -/
def semverFullMatch (s : String) : Bool :=
  semverCore s.data

/-- `re.match(r'^[a-z0-9 ]+$', s)` as executed by the script. -/
def matchNamePy (s : String) : Bool :=
  let cs := stripNL s.data
  !cs.isEmpty && cs.all isNameChar

/-- Modelled from the spec's words (refinement reference): a full match of
`^[a-z0-9 ]+$` with no extra characters. -/
def nameFullMatch (s : String) : Bool :=
  !s.data.isEmpty && s.data.all isNameChar

/-- Python whitespace (`str.rstrip()` default / `\s` over ASCII). -/
def isPyWS (c : Char) : Bool :=
  c == ' ' || c == '\t' || c == '\n' || c == '\r' || c == '\x0b' || c == '\x0c'

/-- `desc.rstrip().endswith(('.', '!', '?'))`. -/
def descEndsPunct (s : String) : Bool :=
  match s.data.reverse.dropWhile isPyWS with
  | [] => false
  | c :: _ => c == '.' || c == '!' || c == '?'

/-! ## Message texts (verbatim from the source f-strings) -/

def msgMetaMissingFile : String := "metadata.json: File not found (required)"

def msgMetaBadSyntax (e : String) : String :=
  s!"metadata.json: Invalid JSON syntax - {e}"

def msgMetaValidSyntax : String := "metadata.json: Valid JSON syntax"

def msgMissingField (f : String) : String :=
  s!"metadata.json: Missing required field {apos}{f}{apos}"

def msgNameErr (name : String) : String :=
  s!"metadata.json: {apos}name{apos} must be lowercase alphanumeric with spaces only. Got: {apos}{name}{apos}"

def msgNamePass : String :=
  s!"metadata.json: {apos}name{apos} follows naming conventions"

def msgNameWarn (expected name : String) : String :=
  s!"metadata.json: {apos}name{apos} should match directory name. Expected: {apos}{expected}{apos}, Got: {apos}{name}{apos}"

def msgDescWarn : String :=
  s!"metadata.json: {apos}description{apos} should end with punctuation"

def msgDescPass : String :=
  s!"metadata.json: {apos}description{apos} has proper punctuation"

def msgVersionErr (version : String) : String :=
  s!"metadata.json: {apos}version{apos} must follow semver (MAJOR.MINOR.PATCH). Got: {apos}{version}{apos}"

def msgVersionPass : String :=
  s!"metadata.json: {apos}version{apos} follows semver format"

/-! ## Descriptor Validator (`validate_metadata_json`) -/

/-- One iteration of the required-field loop:
`if field not in metadata: result.add_error(...)`. -/
def checkField (m : Yaml) (f : String) (r : ValidationResult) : Py ValidationResult := do
  let b ← pyContains f m
  pure (if b then r else r.add_error (msgMissingField f))

/-- The `for field in required_fields` loop. -/
def checkRequiredFields (m : Yaml) (r : ValidationResult) : Py ValidationResult := do
  let r ← checkField m "name" r
  let r ← checkField m "description" r
  checkField m "version" r

/-- The `if 'name' in metadata:` block. -/
def checkNameBlock (dirName : String) (m : Yaml) (r : ValidationResult) : Py ValidationResult := do
  let b ← pyContains "name" m
  if b then
    let v ← pySubscript m "name"
    let name ← asStr v
    let r := if matchNamePy name then r.add_pass msgNamePass else r.add_error (msgNameErr name)
    let expected := pyReplace dirName "-" " "
    pure (if name == expected then r else r.add_warning (msgNameWarn expected name))
  else
    pure r

/-- The `if 'description' in metadata:` block. -/
def checkDescBlock (m : Yaml) (r : ValidationResult) : Py ValidationResult := do
  let b ← pyContains "description" m
  if b then
    let v ← pySubscript m "description"
    let desc ← asStr v
    pure (if descEndsPunct desc then r.add_pass msgDescPass else r.add_warning msgDescWarn)
  else
    pure r

/-- The `if 'version' in metadata:` block. -/
def checkVersionBlock (m : Yaml) (r : ValidationResult) : Py ValidationResult := do
  let b ← pyContains "version" m
  if b then
    let v ← pySubscript m "version"
    let version ← asStr v
    pure (if matchSemverPy version then r.add_pass msgVersionPass else r.add_error (msgVersionErr version))
  else
    pure r

/-- `validate_metadata_json(template_dir, result)`: returns the updated
result together with the parsed value handed to downstream checks
(`none` models Python `None`). -/
def validate_metadata_json (dirName : String) (file : Option (Except String Yaml))
    (r : ValidationResult) : Py (ValidationResult × Option Yaml) := do
  match file with
  | none => pure (r.add_error msgMetaMissingFile, none)
  | some (.error e) => pure (r.add_error (msgMetaBadSyntax e), none)
  | some (.ok m) =>
    let r := r.add_pass msgMetaValidSyntax
    let r ← checkRequiredFields m r
    let r ← checkNameBlock dirName m r
    let r ← checkDescBlock m r
    let r ← checkVersionBlock m r
    pure (r, some m)

/-! ## Pipeline Validator (`validate_pipeline_yaml`) -/

def msgPipeMissingFile : String := "pipeline.yaml: File not found (required)"

def msgPipeBadSyntax (e : String) : String :=
  s!"pipeline.yaml: Invalid YAML syntax - {e}"

def msgPipeValidSyntax : String := "pipeline.yaml: Valid YAML syntax"

def msgPipeRootNotMap : String := "pipeline.yaml: Root must be a mapping/object"

def msgPipeNoVersion : String :=
  s!"pipeline.yaml: Missing {apos}version{apos} field at top level"

def msgPipeVersionWarn (v : String) : String :=
  s!"pipeline.yaml: Expected {apos}version: 1{apos}, got {apos}{v}{apos}"

def msgPipeVersionPass : String :=
  s!"pipeline.yaml: {apos}version: 1{apos} present"

def msgPipeNoPipeline : String :=
  s!"pipeline.yaml: Missing {apos}pipeline{apos} section"

def msgPipeNoStages : String :=
  s!"pipeline.yaml: Missing {apos}stages{apos} in pipeline"

def msgPipeStagesNotList : String :=
  s!"pipeline.yaml: {apos}stages{apos} must be a list"

def msgStageNotMap (i : Nat) : String :=
  s!"pipeline.yaml: Stage {i} must be a mapping"

def msgStageNoName (i : Nat) : String :=
  s!"pipeline.yaml: Stage {i} missing {apos}name{apos} field"

def msgPlatformNoOs (label : String) : String :=
  s!"pipeline.yaml: Stage {apos}{label}{apos} platform missing {apos}os{apos}"

def msgPlatformNoArch (label : String) : String :=
  s!"pipeline.yaml: Stage {apos}{label}{apos} platform missing {apos}arch{apos}"

def msgStepNoName (j : Nat) (label : String) : String :=
  s!"pipeline.yaml: Step {j} in stage {apos}{label}{apos} missing {apos}name{apos}"

def msgStepLatest (slabel : String) : String :=
  s!"pipeline.yaml: Step {apos}{slabel}{apos} uses {apos}:latest{apos} tag. Consider using explicit version tags."

def msgStepDups (label : String) (st : String) : String :=
  s!"pipeline.yaml: Duplicate step names in stage {apos}{label}{apos}: {st}"

def msgStageDups (st : String) : String :=
  s!"pipeline.yaml: Duplicate stage names: {st}"

def msgStagesUnique : String := "pipeline.yaml: All stage names are unique"

def msgInputsCount (n : Nat) : String :=
  s!"pipeline.yaml: {n} inputs defined"

def msgInputNotMap (name : String) : String :=
  s!"pipeline.yaml: Input {apos}{name}{apos} should be a mapping"

def msgInputNoType (name : String) : String :=
  s!"pipeline.yaml: Input {apos}{name}{apos} missing {apos}type{apos} field"

def msgInputBadType (name t : String) : String :=
  s!"pipeline.yaml: Input {apos}{name}{apos} has unknown type {apos}{t}{apos}. Expected: string, secret, or connector"

def msgInputNoDesc (name : String) : String :=
  s!"pipeline.yaml: Input {apos}{name}{apos} missing description (recommended)"

def msgNoInputs : String :=
  s!"pipeline.yaml: No {apos}inputs{apos} section defined"

/-- `f"{stage.get('name', i)}"` for a stage known to be a dict. -/
def stageLabel (kvs : List (String × Yaml)) (i : Nat) : String :=
  pyStr (objGetD kvs "name" (.int (i : Int)))

/-- The `if 'run' in step and isinstance(step['run'], dict): ...` check
of one step (the `:latest`-tag warning). -/
def stepLatestCheck (j : Nat) (skvs : List (String × Yaml)) (r : ValidationResult) :
    Py ValidationResult := do
  if hasKeyKvs skvs "run" then
    match objGetD skvs "run" .null with
    | .obj rkvs =>
      if hasKeyKvs rkvs "container" then
        match objGetD rkvs "container" .null with
        | .obj ckvs =>
          let image ← asStr (objGetD ckvs "image" (.str ""))
          if image.endsWith ":latest" then
            pure (r.add_warning (msgStepLatest (pyStr (objGetD skvs "name" (.int (j : Int))))))
          else
            pure r
        | _ => pure r
      else
        pure r
    | _ => pure r
  else
    pure r

/-- The body of the `for j, step in enumerate(stage.get('steps', []))`
loop for one step; threads the collected `step_names`. -/
def processStep (label : String) (j : Nat) (step : Yaml)
    (r : ValidationResult) (names : List Yaml) : Py (ValidationResult × List Yaml) := do
  match step with
  | .obj skvs =>
    let (r, names) :=
      if hasKeyKvs skvs "name" then (r, names ++ [objGetD skvs "name" .null])
      else (r.add_warning (msgStepNoName j label), names)
    let r ← stepLatestCheck j skvs r
    pure (r, names)
  | _ => pure (r, names)

/-- The step loop, with the running index `j`. -/
def processSteps (label : String) (j : Nat) (steps : List Yaml)
    (r : ValidationResult) (names : List Yaml) : Py (ValidationResult × List Yaml) := do
  match steps with
  | [] => pure (r, names)
  | step :: rest =>
    let (r, names) ← processStep label j step r names
    processSteps label (j + 1) rest r names

/-- The `if 'platform' in stage:` check of one stage. -/
def platformCheck (i : Nat) (kvs : List (String × Yaml)) (r : ValidationResult) :
    Py ValidationResult := do
  if hasKeyKvs kvs "platform" then
    let platform := objGetD kvs "platform" .null
    let bos ← pyContains "os" platform
    let r := if bos then r else r.add_warning (msgPlatformNoOs (stageLabel kvs i))
    let barch ← pyContains "arch" platform
    pure (if barch then r else r.add_warning (msgPlatformNoArch (stageLabel kvs i)))
  else
    pure r

/-- The `if 'steps' in stage:` check of one stage, including the
intra-stage duplicate-step-name detection. -/
def stepsCheck (sord : List Yaml → List Yaml) (i : Nat) (kvs : List (String × Yaml))
    (r : ValidationResult) : Py ValidationResult := do
  if hasKeyKvs kvs "steps" then
    let stepsVal := objGetD kvs "steps" (.arr [])
    let items ← pyIter stepsVal
    let (r, stepNames) ← processSteps (stageLabel kvs i) 0 items r []
    let dups := dupList stepNames
    pure (if dups.isEmpty then r
          else r.add_error (msgStepDups (stageLabel kvs i) (renderSet (sord (dedupPy dups)))))
  else
    pure r

/-- The body of the `for i, stage in enumerate(stages)` loop for one
stage; returns the (possibly empty) contribution to `stage_names`. -/
def processStage (sord : List Yaml → List Yaml) (i : Nat) (stage : Yaml)
    (r : ValidationResult) : Py (ValidationResult × List Yaml) := do
  match stage with
  | .obj kvs =>
    let (r, rec) :=
      if hasKeyKvs kvs "name" then (r, [objGetD kvs "name" .null])
      else (r.add_error (msgStageNoName i), ([] : List Yaml))
    let r ← platformCheck i kvs r
    let r ← stepsCheck sord i kvs r
    pure (r, rec)
  | _ => pure (r.add_error (msgStageNotMap i), [])

/-- The stage loop, with the running index `i`; collects `stage_names`. -/
def processStages (sord : List Yaml → List Yaml) (i : Nat) (stages : List Yaml)
    (r : ValidationResult) : Py (ValidationResult × List Yaml) := do
  match stages with
  | [] => pure (r, [])
  | stage :: rest =>
    let (r, ns) ← processStage sord i stage r
    let (r, ns') ← processStages sord (i + 1) rest r
    pure (r, ns ++ ns')

/-- The `if 'stages' not in pipeline_section: ... else: ...` block.
`sord` is the ambient set-iteration order (see `validSetOrder`). -/
def checkStagesBlock (sord : List Yaml → List Yaml) (sect : Yaml)
    (r : ValidationResult) : Py ValidationResult := do
  let hasStages ← pyContains "stages" sect
  if !hasStages then
    pure (r.add_error msgPipeNoStages)
  else
    let stages ← pySubscript sect "stages"
    match stages with
    | .arr stageList =>
      let (r, stageNames) ← processStages sord 0 stageList r
      let dups := dupList stageNames
      if dups.isEmpty then
        pure (r.add_pass msgStagesUnique)
      else
        pure (r.add_error (msgStageDups (renderSet (sord (dedupPy dups)))))
    | _ => pure (r.add_error msgPipeStagesNotList)

/-- One named input of the `inputs` mapping. -/
def processInput (name : String) (idef : Yaml) (r : ValidationResult) : ValidationResult :=
  match idef with
  | .obj ikvs =>
    let r :=
      if !hasKeyKvs ikvs "type" then r.add_warning (msgInputNoType name)
      else
        let t := objGetD ikvs "type" .null
        if (["string", "secret", "connector"].map Yaml.str).any (fun e => pyEq t e) then r
        else r.add_warning (msgInputBadType name (pyStr t))
    if !hasKeyKvs ikvs "description" then r.add_warning (msgInputNoDesc name) else r
  | _ => r.add_warning (msgInputNotMap name)

def processInputs (items : List (String × Yaml)) (r : ValidationResult) : ValidationResult :=
  match items with
  | [] => r
  | (name, idef) :: rest => processInputs rest (processInput name idef r)

/-- The `if 'inputs' in pipeline_section: ... else: ...` block. -/
def checkInputsBlock (sect : Yaml) (r : ValidationResult) : Py ValidationResult := do
  let hasInputs ← pyContains "inputs" sect
  if hasInputs then
    let inputs ← pySubscript sect "inputs"
    match inputs with
    | .obj ikvs =>
      let r := r.add_pass (msgInputsCount ikvs.length)
      pure (processInputs ikvs r)
    | _ => pure r
  else
    pure (r.add_warning msgNoInputs)

/-- `validate_pipeline_yaml(template_dir, result)`. -/
def validate_pipeline_yaml (sord : List Yaml → List Yaml)
    (file : Option (Except String Yaml)) (r : ValidationResult) :
    Py (ValidationResult × Option Yaml) := do
  match file with
  | none => pure (r.add_error msgPipeMissingFile, none)
  | some (.error e) => pure (r.add_error (msgPipeBadSyntax e), none)
  | some (.ok p) =>
    let r := r.add_pass msgPipeValidSyntax
    match p with
    | .obj pkvs =>
      let r :=
        if !hasKeyKvs pkvs "version" then r.add_error msgPipeNoVersion
        else if !pyEq (objGetD pkvs "version" .null) (.int 1) then
          r.add_warning (msgPipeVersionWarn (pyStr (objGetD pkvs "version" .null)))
        else r.add_pass msgPipeVersionPass
      if !hasKeyKvs pkvs "pipeline" then
        pure (r.add_error msgPipeNoPipeline, some (.obj pkvs))
      else
        let sect := objGetD pkvs "pipeline" .null
        let r ← checkStagesBlock sord sect r
        let r ← checkInputsBlock sect r
        pure (r, some (.obj pkvs))
    | _ => pure (r.add_error msgPipeRootNotMap, none)

/-! ## Documentation Validator (`validate_wiki_md`) -/

def msgWikiMissing : String := "wiki.MD: File not found (optional but recommended)"

def msgWikiUnreadable (e : String) : String :=
  s!"wiki.MD: Cannot read file - {e}"

def msgWikiReadable : String := "wiki.MD: File exists and is readable"

def msgWikiNoTitle : String := "wiki.MD: Missing title (# heading)"

def msgWikiTitle : String := "wiki.MD: Title present"

def msgSectTitle (sect : String) : String :=
  s!"wiki.MD: {apos}{sect}{apos} section present"

def msgSectMissing (sect : String) : String :=
  s!"wiki.MD: Missing {apos}{sect}{apos} section (recommended)"

def msgCodeBlocks (n : Nat) : String :=
  s!"wiki.MD: {n} code block(s) missing language specifier"

def msgCodeBlocksPass : String := "wiki.MD: All code blocks have language specifiers"

/-- After `^#` was consumed: `\s+.+` (with `.` not matching `'\n'`).
Matches iff the next char is whitespace and some later char in the run of
newlines that follows is not a newline (see the regex analysis: `\s+` can
only usefully extend over newlines before the first `.`-matchable char). -/
def titleAfterHash (cs : List Char) : Bool :=
  match cs with
  | [] => false
  | c :: rest => isPyWS c && rest.any (fun d => d != '\n')

/-- `re.search(r'^#\s+.+', content, re.MULTILINE)`: scan every position,
tracking whether it is a line start. -/
def wikiTitleScan (cs : List Char) (atStart : Bool) : Bool :=
  match cs with
  | [] => false
  | c :: rest =>
    (atStart && c == '#' && titleAfterHash rest) || wikiTitleScan rest (c == '\n')

/-- `\s+` followed by the literal `sect`, with backtracking over the
whitespace length. -/
def wsThenLit (sect : List Char) : List Char → Bool
  | [] => false
  | c :: rest => isPyWS c && (sect.isPrefixOf rest || wsThenLit sect rest)

/-- `re.search(rf'^##\s+{sect}', lower, re.MULTILINE)`. -/
def sectScan (sect : List Char) (cs : List Char) (atStart : Bool) : Bool :=
  match cs with
  | [] => false
  | c :: rest =>
    (atStart && (match c :: rest with
      | c1 :: c2 :: r2 => c1 == '#' && c2 == '#' && wsThenLit sect r2
      | _ => false)) || sectScan sect rest (c == '\n')

/-- `\w` over ASCII (`[a-zA-Z0-9_]`). -/
def isWordChar (c : Char) : Bool :=
  c.isAlphanum || c == '_'

def btick : Char := Char.ofNat 96

/-- Python `str.lower()` (over ASCII, like the section names it feeds). -/
def pyLower (s : String) : String := String.mk (s.data.map Char.toLower)

/-- `re.findall(r'```(\w*)\n', content)`: left-to-right non-overlapping
scan; on failure at a position the engine advances one character.  Fuel is
the character count, which always suffices (every recursive call consumes
at least one character). -/
def findBlocksF : Nat → List Char → List String
  | 0, _ => []
  | _ + 1, [] => []
  | fuel + 1, c :: rest =>
    if c == btick && [btick, btick].isPrefixOf rest then
      let after := rest.drop 2
      let w := after.takeWhile isWordChar
      match after.dropWhile isWordChar with
      | '\n' :: tl => String.mk w :: findBlocksF fuel tl
      | _ => findBlocksF fuel rest
    else findBlocksF fuel rest

def findBlocks (cs : List Char) : List String :=
  findBlocksF cs.length cs

/-- `validate_wiki_md(template_dir, result, metadata)`: pure (the script
performs no operation here that can raise once the file is read). -/
def validate_wiki_md (file : Option (Except String String)) (_metadata : Option Yaml)
    (r : ValidationResult) : ValidationResult :=
  match file with
  | none => r.add_warning msgWikiMissing
  | some (.error e) => r.add_error (msgWikiUnreadable e)
  | some (.ok content) =>
    let r := r.add_pass msgWikiReadable
    let r :=
      if wikiTitleScan content.data true then r.add_pass msgWikiTitle
      else r.add_error msgWikiNoTitle
    let lower := pyLower content
    let r := (["overview", "key capabilities", "inputs"]).foldl
      (fun r sect =>
        if sectScan sect.data lower.data true then r.add_pass (msgSectTitle sect)
        else r.add_warning (msgSectMissing sect)) r
    let codeBlocks := findBlocks content.data
    let unspecified := codeBlocks.filter (fun lang => lang == "")
    if unspecified.length > 0 then r.add_warning (msgCodeBlocks unspecified.length)
    else r.add_pass msgCodeBlocksPass

/-! ## Cross-File Checker and per-template orchestration -/

def msgCross : String :=
  s!"Cross-file: metadata.json {apos}name{apos} matches directory name"

/-- `validate_cross_file_consistency(template_dir, result, metadata, pipeline)`. -/
def validate_cross_file_consistency (dirName : String) (metadata pipeline : Option Yaml)
    (r : ValidationResult) : Py ValidationResult := do
  match metadata, pipeline with
  | some m, some _ =>
    let expected := pyReplace dirName "-" " "
    let v ← pyGet m "name"
    pure (if pyEq v (.str expected) then r.add_pass msgCross else r)
  | _, _ => pure r

/-- A template directory as the validators see it: its base name and the
read/parse outcome of each of the three files. -/
structure TemplateInput where
  pathStr : String
  pathExists : Bool
  dirName : String
  metadataF : Option (Except String Yaml)
  pipelineF : Option (Except String Yaml)
  wikiF : Option (Except String String)

/-- `validate_template(template_dir)`. -/
def validate_template (sord : List Yaml → List Yaml) (t : TemplateInput) :
    Py ValidationResult := do
  let r := ValidationResult.init t.dirName
  let (r, metadata) ← validate_metadata_json t.dirName t.metadataF r
  let (r, pipeline) ← validate_pipeline_yaml sord t.pipelineF r
  let r := validate_wiki_md t.wikiF metadata r
  validate_cross_file_consistency t.dirName metadata pipeline r

/-! ## Report rendering (`ValidationResult.print_report`) and `main` -/

def dash50 : String := String.mk (List.replicate 50 '-')

def eq60 : String := String.mk (List.replicate 60 '=')

/-- The exact text `print_report` writes to the console. -/
def ValidationResult.print_report (r : ValidationResult) : String :=
  "\n## Template: " ++ r.template_name ++ "\n"
    ++ dash50 ++ "\n"
    ++ String.join (r.passes.map (fun m => "  ✅ " ++ m ++ "\n"))
    ++ String.join (r.warnings.map (fun m => "  ⚠️  " ++ m ++ "\n"))
    ++ String.join (r.errors.map (fun m => "  ❌ " ++ m ++ "\n"))
    ++ s!"\n  Summary: {r.errors.length} errors, {r.warnings.length} warnings\n"
    ++ (if r.is_valid then "  Status: PASSED\n" else "  Status: FAILED\n")

/-- The per-template loop of `main`: skip nonexistent paths with a console
warning, otherwise validate and print the report. -/
def mainLoop (sord : List Yaml → List Yaml) : List TemplateInput → Py (String × List ValidationResult)
  | [] => pure ("", [])
  | t :: rest => do
    if t.pathExists then
      let r ← validate_template sord t
      let (out, rs) ← mainLoop sord rest
      pure (r.print_report ++ out, r :: rs)
    else
      let (out, rs) ← mainLoop sord rest
      pure (s!"\nWarning: Template path does not exist: {t.pathStr}\n" ++ out, rs)

def summaryText (results : List ValidationResult) : String :=
  let failed := results.filter (fun r => !r.is_valid)
  let passed := results.filter (fun r => r.is_valid)
  let totalErrors := (results.map (fun r => r.errors.length)).sum
  let totalWarnings := (results.map (fun r => r.warnings.length)).sum
  "\n" ++ eq60 ++ "\n"
    ++ "VALIDATION SUMMARY\n"
    ++ eq60 ++ "\n"
    ++ s!"\nTemplates validated: {results.length}\n"
    ++ s!"  Passed: {passed.length}\n"
    ++ s!"  Failed: {failed.length}\n"
    ++ s!"\nTotal errors: {totalErrors}\n"
    ++ s!"Total warnings: {totalWarnings}\n"
    ++ (if !failed.isEmpty then
          "\nFailed templates:\n"
          ++ String.join (failed.map (fun r => "  - " ++ r.template_name ++ "\n"))
          ++ "\n❌ Validation FAILED\n"
        else "\n✅ All templates passed validation\n")

/-- `main()` from the point where the list of template paths is known
(explicit arguments, or the result of discovery).  Returns the console
output, the collected results, and the process exit code. -/
def runMain (sord : List Yaml → List Yaml) (templatePaths : List TemplateInput) :
    Py (String × List ValidationResult × Nat) := do
  if templatePaths.isEmpty then
    pure ("No templates found to validate.\n", [], 0)
  else
    let header := eq60 ++ "\n"
      ++ "Harness Agent Template Validation\n"
      ++ eq60 ++ "\n"
      ++ s!"\nValidating {templatePaths.length} template(s)...\n"
    let (body, results) ← mainLoop sord templatePaths
    let failed := results.filter (fun r => !r.is_valid)
    let code := if !failed.isEmpty then 1 else 0
    pure (header ++ body ++ summaryText results, results, code)

/-! ## Basic lemmas about the embedding -/

mutual

theorem yamlBeq_refl : (a : Yaml) → yamlBeq a a = true
  | .null => rfl
  | .bool b => by simp [yamlBeq]
  | .int n => by simp [yamlBeq]
  | .str s => by simp [yamlBeq]
  | .arr xs => by simpa [yamlBeq] using yamlBeqList_refl xs
  | .obj kvs => by simpa [yamlBeq] using yamlBeqKvs_refl kvs

theorem yamlBeqList_refl : (l : List Yaml) → yamlBeqList l l = true
  | [] => rfl
  | x :: xs => by
    simp [yamlBeqList]
    exact ⟨yamlBeq_refl x, yamlBeqList_refl xs⟩

theorem yamlBeqKvs_refl : (l : List (String × Yaml)) → yamlBeqKvs l l = true
  | [] => rfl
  | kv :: xs => by
    simp [yamlBeqKvs]
    exact ⟨yamlBeq_refl kv.2, yamlBeqKvs_refl xs⟩

end

/-- One call against a `ValidationResult` during a run. -/
inductive VOp where
  | err (m : String)
  | warn (m : String)
  | pass (m : String)

def applyOp (r : ValidationResult) : VOp → ValidationResult
  | .err m => r.add_error m
  | .warn m => r.add_warning m
  | .pass m => r.add_pass m

/-- Any sequence of later `add_*` calls. -/
def applyOps (r : ValidationResult) : List VOp → ValidationResult
  | [] => r
  | op :: rest => applyOps (applyOp r op) rest

/-- The error messages the `required_fields` loop contributes. -/
def reqDelta (kvs : List (String × Yaml)) : List String :=
  ((["name", "description", "version"]).filter (fun f => !hasKeyKvs kvs f)).map msgMissingField

def kvsC5 : List (String × Yaml) := [("version", .str "1.0.0")]

def resC5 : ValidationResult :=
  ⟨"demo", [msgMissingField "name", msgMissingField "description"], [],
    [msgMetaValidSyntax, msgVersionPass]⟩

def kvsC5x : List (String × Yaml) := [("version", .str "1.0.0\n")]

def pipeNullDoc : Yaml := .obj [("version", .int 1), ("pipeline", .null)]

def wikiC6 : String := "```python\nprint(1)\n```\n"

def stageNamed (n : String) : Yaml := .obj [("name", .str n)]

def pipeDupDoc : Yaml :=
  .obj [("version", .int 1),
        ("pipeline", .obj [("stages",
          .arr [stageNamed "a", stageNamed "a", stageNamed "b", stageNamed "b"])])]

def tDup : TemplateInput :=
  ⟨"templates/dup", true, "dup",
    some (.ok (.obj [("name", .str "dup"), ("description", .str "Dup."),
      ("version", .str "1.0.0")])),
    some (.ok pipeDupDoc), none⟩

/-- The name a stage contributes to `stage_names` (if any). -/
def stageName? (stage : Yaml) : Option Yaml :=
  match stage with
  | .obj kvs => if hasKeyKvs kvs "name" then some (objGetD kvs "name" .null) else none
  | _ => none

/-- `stage_names` as collected by the stage loop. -/
def recordedStageNames (stages : List Yaml) : List Yaml :=
  stages.filterMap stageName?

/-- A message that is not a duplicate-stage-names error (for any set). -/
def notStageDup (e : String) : Prop := ∀ st : String, e ≠ msgStageDups st

def stagesC3 : List Yaml := [stageNamed "a", stageNamed "a"]

def skvsC3 : List (String × Yaml) := [("stages", .arr stagesC3)]

def pkvsC3 : List (String × Yaml) := [("version", .int 1), ("pipeline", .obj skvsC3)]

def resC3 : ValidationResult :=
  ⟨"demo", [msgStageDups (renderSet [Yaml.str "a"])], [msgNoInputs],
    [msgPipeValidSyntax, msgPipeVersionPass]⟩

/-- A stage entry that is processed without raising: a non-mapping, or a
mapping that lacks `name` and carries neither `platform` nor `steps`. -/
def benignStage (s : Yaml) : Bool :=
  match s with
  | .obj kvs => !hasKeyKvs kvs "name" && !hasKeyKvs kvs "platform" && !hasKeyKvs kvs "steps"
  | _ => true

def mkStagesDoc (stages : List Yaml) : Yaml :=
  .obj [("version", .int 1), ("pipeline", .obj [("stages", .arr stages)])]

def stagesC10 : List Yaml := [Yaml.obj [], Yaml.int 0]

theorem pyEq_refl (a : Yaml) : pyEq a a = true := by
  cases a <;> simp [pyEq, yamlBeq_refl]

theorem py_bind_ok {α β : Type} (a : Py α) (f : α → Py β) (y : β) :
    (a >>= f) = .ok y ↔ ∃ x, a = .ok x ∧ f x = .ok y := by
  cases a <;> simp [Bind.bind, Except.bind]

theorem hasKeyKvs_iff_lookup (kvs : List (String × Yaml)) (k : String) :
    hasKeyKvs kvs k = true ↔ ∃ v, objLookup kvs k = some v := by
  constructor
  · intro h
    rcases List.any_eq_true.mp h with ⟨kv, hmem, hk⟩
    have : (kvs.find? (fun kv => kv.1 == k)).isSome := by
      rw [List.find?_isSome]
      exact ⟨kv, hmem, hk⟩
    rcases Option.isSome_iff_exists.mp this with ⟨w, hw⟩
    exact ⟨w.2, by simp [objLookup, hw]⟩
  · rintro ⟨v, hv⟩
    unfold objLookup at hv
    rcases Option.map_eq_some'.mp hv with ⟨kv, hfind, _⟩
    have := List.find?_some hfind
    exact List.any_eq_true.mpr ⟨kv, List.mem_of_find?_eq_some hfind, this⟩

theorem hasKeyKvs_of_lookup {kvs : List (String × Yaml)} {k : String} {v : Yaml}
    (h : objLookup kvs k = some v) : hasKeyKvs kvs k = true :=
  (hasKeyKvs_iff_lookup kvs k).mpr ⟨v, h⟩

theorem hasKeyKvs_false_iff (kvs : List (String × Yaml)) (k : String) :
    hasKeyKvs kvs k = false ↔ objLookup kvs k = none := by
  constructor
  · intro h
    cases hl : objLookup kvs k with
    | none => rfl
    | some v => rw [hasKeyKvs_of_lookup hl] at h; cases h
  · intro h
    cases hk : hasKeyKvs kvs k with
    | false => rfl
    | true =>
      rcases (hasKeyKvs_iff_lookup kvs k).mp hk with ⟨v, hv⟩
      rw [hv] at h; cases h

/-! ## Result-collector operation model (for the invariant claim) -/

theorem applyOps_errors_ne (ops : List VOp) (r : ValidationResult)
    (h : r.errors ≠ []) : (applyOps r ops).errors ≠ [] := by
  induction ops generalizing r with
  | nil => exact h
  | cons op rest ih =>
    cases op with
    | err m =>
      exact ih _ (by simp [applyOp, ValidationResult.add_error])
    | warn m => exact ih _ (by simpa [applyOp, ValidationResult.add_warning] using h)
    | pass m => exact ih _ (by simpa [applyOp, ValidationResult.add_pass] using h)

/-! ## Characterization of the Descriptor Validator blocks -/

@[simp] theorem py_ok_bind {α β : Type} (x : α) (f : α → Py β) :
    ((Except.ok x : Py α) >>= f) = f x := rfl

@[simp] theorem py_error_bind {α β : Type} (e : String) (f : α → Py β) :
    ((Except.error e : Py α) >>= f) = Except.error e := rfl

@[simp] theorem py_pure {α : Type} (x : α) : (pure x : Py α) = Except.ok x := rfl

theorem checkField_obj (kvs : List (String × Yaml)) (f : String) (r : ValidationResult) :
    checkField (.obj kvs) f r =
      .ok (if hasKeyKvs kvs f then r else r.add_error (msgMissingField f)) := rfl

theorem checkRequiredFields_obj (kvs : List (String × Yaml)) (r : ValidationResult) :
    checkRequiredFields (.obj kvs) r = .ok { r with errors := r.errors ++ reqDelta kvs } := by
  cases h1 : hasKeyKvs kvs "name" <;> cases h2 : hasKeyKvs kvs "description" <;>
    cases h3 : hasKeyKvs kvs "version" <;>
      simp [checkRequiredFields, checkField, pyContains, h1, h2, h3, reqDelta,
        ValidationResult.add_error]

theorem checkNameBlock_none (d : String) (kvs : List (String × Yaml)) (r : ValidationResult)
    (h : objLookup kvs "name" = none) : checkNameBlock d (.obj kvs) r = .ok r := by
  have hk : hasKeyKvs kvs "name" = false := (hasKeyKvs_false_iff kvs "name").mpr h
  simp [checkNameBlock, pyContains, hk]

theorem checkNameBlock_str (d : String) (kvs : List (String × Yaml)) (r : ValidationResult)
    (s : String) (h : objLookup kvs "name" = some (.str s)) :
    checkNameBlock d (.obj kvs) r =
      .ok (let r1 := if matchNamePy s then r.add_pass msgNamePass else r.add_error (msgNameErr s)
           if s == pyReplace d "-" " " then r1
           else r1.add_warning (msgNameWarn (pyReplace d "-" " ") s)) := by
  have hk := hasKeyKvs_of_lookup h
  simp [checkNameBlock, pyContains, hk, pySubscript, h, asStr]

theorem checkDescBlock_none (kvs : List (String × Yaml)) (r : ValidationResult)
    (h : objLookup kvs "description" = none) : checkDescBlock (.obj kvs) r = .ok r := by
  have hk : hasKeyKvs kvs "description" = false := (hasKeyKvs_false_iff kvs "description").mpr h
  simp [checkDescBlock, pyContains, hk]

theorem checkDescBlock_str (kvs : List (String × Yaml)) (r : ValidationResult)
    (s : String) (h : objLookup kvs "description" = some (.str s)) :
    checkDescBlock (.obj kvs) r =
      .ok (if descEndsPunct s then r.add_pass msgDescPass else r.add_warning msgDescWarn) := by
  have hk := hasKeyKvs_of_lookup h
  simp [checkDescBlock, pyContains, hk, pySubscript, h, asStr]

theorem checkVersionBlock_none (kvs : List (String × Yaml)) (r : ValidationResult)
    (h : objLookup kvs "version" = none) : checkVersionBlock (.obj kvs) r = .ok r := by
  have hk : hasKeyKvs kvs "version" = false := (hasKeyKvs_false_iff kvs "version").mpr h
  simp [checkVersionBlock, pyContains, hk]

theorem checkVersionBlock_str (kvs : List (String × Yaml)) (r : ValidationResult)
    (s : String) (h : objLookup kvs "version" = some (.str s)) :
    checkVersionBlock (.obj kvs) r =
      .ok (if matchSemverPy s then r.add_pass msgVersionPass else r.add_error (msgVersionErr s)) := by
  have hk := hasKeyKvs_of_lookup h
  simp [checkVersionBlock, pyContains, hk, pySubscript, h, asStr]

/-! ## Full match versus Python `re.match` -/

theorem stripNL_of_not_mem (cs : List Char) (h : '\n' ∉ cs) : stripNL cs = cs := by
  unfold stripNL
  split
  · next rest heq =>
    exfalso
    apply h
    have : '\n' ∈ cs.reverse := by rw [heq]; exact List.mem_cons_self _ _
    exact List.mem_reverse.mp this
  · rfl

theorem matchNamePy_of_full (s : String) (h : nameFullMatch s = true) : matchNamePy s = true := by
  unfold nameFullMatch at h
  have hmem : '\n' ∉ s.data := by
    intro hc
    have := (List.all_eq_true.mp (Bool.and_elim_right h)) _ hc
    simp [isNameChar] at this
  unfold matchNamePy
  rw [stripNL_of_not_mem _ hmem]
  exact h

theorem splitOnDot_ne_nil (cs : List Char) : splitOnDot cs ≠ [] := by
  cases cs with
  | nil => simp [splitOnDot]
  | cons c rest =>
    unfold splitOnDot
    cases h : splitOnDot rest with
    | nil => simp
    | cons g gs => by_cases hc : c = '.' <;> simp [hc]

theorem mem_splitOnDot (cs : List Char) (c : Char) (hc : c ∈ cs) :
    c = '.' ∨ ∃ g ∈ splitOnDot cs, c ∈ g := by
  induction cs with
  | nil => cases hc
  | cons c0 rest ih =>
    rcases List.mem_cons.mp hc with rfl | hr
    · by_cases hdot : c = '.'
      · exact Or.inl hdot
      · right
        cases h : splitOnDot rest with
        | nil => exact absurd h (splitOnDot_ne_nil rest)
        | cons g gs =>
          refine ⟨c :: g, ?_, List.mem_cons_self _ _⟩
          simp [splitOnDot, h, hdot]
    · rcases ih hr with hdot | ⟨g, hg, hcg⟩
      · exact Or.inl hdot
      · right
        cases h : splitOnDot rest with
        | nil => rw [h] at hg; cases hg
        | cons g0 gs =>
          rw [h] at hg
          by_cases hdot0 : c0 = '.'
          · have hsp : splitOnDot (c0 :: rest) = [] :: g0 :: gs := by
              simp [splitOnDot, h, hdot0]
            exact ⟨g, by rw [hsp]; exact List.mem_cons_of_mem _ hg, hcg⟩
          · have hsp : splitOnDot (c0 :: rest) = (c0 :: g0) :: gs := by
              simp [splitOnDot, h, hdot0]
            rcases List.mem_cons.mp hg with rfl | hgs
            · exact ⟨c0 :: g, by rw [hsp]; exact List.mem_cons_self _ _,
                List.mem_cons_of_mem _ hcg⟩
            · exact ⟨g, by rw [hsp]; exact List.mem_cons_of_mem _ hgs, hcg⟩

theorem semverCore_chars (cs : List Char) (h : semverCore cs = true) :
    ∀ c ∈ cs, c = '.' ∨ c.isDigit = true := by
  intro c hc
  rcases mem_splitOnDot cs c hc with hdot | ⟨g, hg, hcg⟩
  · exact Or.inl hdot
  · right
    unfold semverCore at h
    rcases hsp : splitOnDot cs with _ | ⟨a, tl1⟩
    · rw [hsp] at h; simp at h
    · rw [hsp] at h hg
      rcases tl1 with _ | ⟨b, tl2⟩
      · simp at h
      · rcases tl2 with _ | ⟨d, tl3⟩
        · simp at h
        · rcases tl3 with _ | ⟨e, tl4⟩
          · simp only [] at h
            have h3 : isNum a = true ∧ isNum b = true ∧ isNum d = true := by
              have := h
              simp only [Bool.and_eq_true] at this
              exact ⟨this.1.1, this.1.2, this.2⟩
            have hnum : isNum g = true := by
              rcases List.mem_cons.mp hg with rfl | hg2
              · exact h3.1
              · rcases List.mem_cons.mp hg2 with rfl | hg3
                · exact h3.2.1
                · rcases List.mem_cons.mp hg3 with rfl | hg4
                  · exact h3.2.2
                  · cases hg4
            exact (List.all_eq_true.mp (Bool.and_elim_right hnum)) _ hcg
          · simp at h

theorem matchSemverPy_of_full (s : String) (h : semverFullMatch s = true) :
    matchSemverPy s = true := by
  unfold semverFullMatch at h
  have hmem : '\n' ∉ s.data := by
    intro hc
    rcases semverCore_chars _ h _ hc with hdot | hdig
    · cases hdot
    · simp [Char.isDigit] at hdig
  unfold matchSemverPy
  rw [stripNL_of_not_mem _ hmem]
  exact h

/-! ## Claim C8 -/

/-- C8: `add_error`, `add_warning`, `add_pass` each append exactly one
message to their own sequence and leave the other two sequences unchanged;
`is_valid` always equals "the error sequence is empty", so `add_warning`
and `add_pass` never change `is_valid`, and once `add_error` has been
called `is_valid` stays `false` for any sequence of further calls. -/
theorem C8_validation_result_invariant (r : ValidationResult) (m : String) :
    ((r.add_error m).errors = r.errors ++ [m] ∧
      (r.add_error m).warnings = r.warnings ∧ (r.add_error m).passes = r.passes) ∧
    ((r.add_warning m).warnings = r.warnings ++ [m] ∧
      (r.add_warning m).errors = r.errors ∧ (r.add_warning m).passes = r.passes) ∧
    ((r.add_pass m).passes = r.passes ++ [m] ∧
      (r.add_pass m).errors = r.errors ∧ (r.add_pass m).warnings = r.warnings) ∧
    (r.is_valid = true ↔ r.errors = []) ∧
    ((r.add_warning m).is_valid = r.is_valid ∧ (r.add_pass m).is_valid = r.is_valid) ∧
    (∀ ops : List VOp, (applyOps (r.add_error m) ops).is_valid = false) := by
  refine ⟨⟨rfl, rfl, rfl⟩, ⟨rfl, rfl, rfl⟩, ⟨rfl, rfl, rfl⟩, ?_, ⟨rfl, rfl⟩, ?_⟩
  · simp [ValidationResult.is_valid, List.length_eq_zero]
  · intro ops
    have h := applyOps_errors_ne ops (r.add_error m)
      (by simp [ValidationResult.add_error])
    simp [ValidationResult.is_valid, List.length_eq_zero]
    exact h

/-! ## Claim C2 -/

/-- C2: for every metadata mapping in which `name`, `description`,
`version` are all present, `name` fully matches `^[a-z0-9 ]+$` and equals
the directory base name with hyphens replaced by spaces, `version` fully
matches `^\d+\.\d+\.\d+$`, and `description` ends (after right-trimming)
in `.`, `!` or `?`: the Descriptor Validator adds zero errors and zero
warnings. -/
theorem C2_descriptor_valid_metadata (dirName : String) (kvs : List (String × Yaml))
    (nm ds vs : String)
    (hn : objLookup kvs "name" = some (.str nm))
    (hd : objLookup kvs "description" = some (.str ds))
    (hv : objLookup kvs "version" = some (.str vs))
    (hnm : nameFullMatch nm = true)
    (hexp : nm = pyReplace dirName "-" " ")
    (hds : descEndsPunct ds = true)
    (hvs : semverFullMatch vs = true) :
    ∃ r : ValidationResult,
      validate_metadata_json dirName (some (.ok (.obj kvs))) (ValidationResult.init dirName)
        = .ok (r, some (.obj kvs)) ∧ r.errors = [] ∧ r.warnings = [] := by
  have hk1 := hasKeyKvs_of_lookup hn
  have hk2 := hasKeyKvs_of_lookup hd
  have hk3 := hasKeyKvs_of_lookup hv
  have hreq : reqDelta kvs = [] := by simp [reqDelta, hk1, hk2, hk3]
  have hm1 := matchNamePy_of_full nm hnm
  have hm2 := matchSemverPy_of_full vs hvs
  refine ⟨((((ValidationResult.init dirName).add_pass msgMetaValidSyntax).add_pass
    msgNamePass).add_pass msgDescPass).add_pass msgVersionPass, ?_, by
      simp [ValidationResult.init, ValidationResult.add_pass], by
      simp [ValidationResult.init, ValidationResult.add_pass]⟩
  simp only [validate_metadata_json]
  rw [checkRequiredFields_obj]
  simp only [hreq, List.append_nil, py_ok_bind]
  rw [checkNameBlock_str _ _ _ _ hn]
  have hbeq : (nm == pyReplace dirName "-" " ") = true := by rw [hexp]; exact beq_self_eq_true _
  simp only [hm1, hbeq, if_true, py_ok_bind]
  rw [checkDescBlock_str _ _ _ hd]
  simp only [hds, if_true, py_ok_bind]
  rw [checkVersionBlock_str _ _ _ hv]
  simp only [hm2, if_true, py_ok_bind, py_pure]

/-- C2 witness: the spec's own scenario (`my-agent` with
`{"name": "my agent", "description": "Does things.", "version": "1.0.0"}`). -/
theorem C2_descriptor_valid_metadata_witness :
    ∃ r : ValidationResult,
      validate_metadata_json "my-agent"
        (some (.ok (.obj [("name", .str "my agent"), ("description", .str "Does things."),
          ("version", .str "1.0.0")])))
        (ValidationResult.init "my-agent")
        = .ok (r, some (.obj [("name", .str "my agent"), ("description", .str "Does things."),
          ("version", .str "1.0.0")])) ∧ r.errors = [] ∧ r.warnings = [] :=
  C2_descriptor_valid_metadata "my-agent" _ "my agent" "Does things." "1.0.0"
    rfl rfl rfl (by decide) rfl (by decide) (by decide)

/-! ## Claim C9 -/

/-- C9: when `metadata.json` parses to a list (a non-mapping that still
supports membership tests), the Descriptor Validator emits no root-type
error: the three required-field checks run against the list — yielding
exactly the three missing-field errors when no element equals a field
name — and the list itself is returned for downstream cross-file use. -/
theorem C9_metadata_list_no_root_check (dirName : String) (l : List Yaml)
    (h : ∀ x ∈ l, pyEq x (.str "name") = false ∧ pyEq x (.str "description") = false ∧
      pyEq x (.str "version") = false) :
    validate_metadata_json dirName (some (.ok (.arr l))) (ValidationResult.init dirName)
      = .ok (⟨dirName,
          [msgMissingField "name", msgMissingField "description", msgMissingField "version"],
          [], [msgMetaValidSyntax]⟩, some (.arr l)) := by
  have ha1 : (l.any fun x => pyEq x (.str "name")) = false := by
    rw [← Bool.not_eq_true, List.any_eq_true]
    rintro ⟨x, hx, hp⟩
    rw [(h x hx).1] at hp
    cases hp
  have ha2 : (l.any fun x => pyEq x (.str "description")) = false := by
    rw [← Bool.not_eq_true, List.any_eq_true]
    rintro ⟨x, hx, hp⟩
    rw [(h x hx).2.1] at hp
    cases hp
  have ha3 : (l.any fun x => pyEq x (.str "version")) = false := by
    rw [← Bool.not_eq_true, List.any_eq_true]
    rintro ⟨x, hx, hp⟩
    rw [(h x hx).2.2] at hp
    cases hp
  simp [validate_metadata_json, checkRequiredFields, checkField, checkNameBlock,
    checkDescBlock, checkVersionBlock, pyContains, ha1, ha2, ha3,
    ValidationResult.init, ValidationResult.add_error, ValidationResult.add_pass]

/-- C9 witness: the list `["a", "b"]`. -/
theorem C9_metadata_list_no_root_check_witness :
    validate_metadata_json "demo" (some (.ok (.arr [.str "a", .str "b"])))
      (ValidationResult.init "demo")
      = .ok (⟨"demo",
          [msgMissingField "name", msgMissingField "description", msgMissingField "version"],
          [], [msgMetaValidSyntax]⟩, some (.arr [.str "a", .str "b"])) :=
  C9_metadata_list_no_root_check "demo" [.str "a", .str "b"]
    (by intro x hx
        rcases List.mem_cons.mp hx with rfl | hx2
        · exact ⟨rfl, rfl, rfl⟩
        · rcases List.mem_cons.mp hx2 with rfl | hx3
          · exact ⟨rfl, rfl, rfl⟩
          · cases hx3)

/-! ## Distinguishing message families -/

theorem string_ne_of_getElem {a b : String} (i : Nat) (h : a.data[i]? ≠ b.data[i]?) :
    a ≠ b := fun he => h (by rw [he])

theorem msgVersionErr_data (vs : String) :
    (msgVersionErr vs).data =
      ("metadata.json: " ++ apos ++ "version" ++ apos
        ++ " must follow semver (MAJOR.MINOR.PATCH). Got: " ++ apos).data
        ++ (vs.data ++ apos.data) := by
  simp [msgVersionErr, toString, String.data_append]

theorem msgNameErr_data (s : String) :
    (msgNameErr s).data =
      ("metadata.json: " ++ apos ++ "name" ++ apos
        ++ " must be lowercase alphanumeric with spaces only. Got: " ++ apos).data
        ++ (s.data ++ apos.data) := by
  simp [msgNameErr, toString, String.data_append]

theorem msgVersionErr_ne_missing_name (vs : String) :
    msgVersionErr vs ≠ msgMissingField "name" := by
  apply string_ne_of_getElem 15
  rw [msgVersionErr_data, List.getElem?_append_left (by decide)]
  decide

theorem msgVersionErr_ne_missing_desc (vs : String) :
    msgVersionErr vs ≠ msgMissingField "description" := by
  apply string_ne_of_getElem 15
  rw [msgVersionErr_data, List.getElem?_append_left (by decide)]
  decide

theorem msgVersionErr_ne_nameErr (vs s : String) :
    msgVersionErr vs ≠ msgNameErr s := by
  apply string_ne_of_getElem 16
  rw [msgVersionErr_data, msgNameErr_data,
    List.getElem?_append_left (by decide), List.getElem?_append_left (by decide)]
  decide

/-! ## Flattened block results -/

theorem checkNameBlock_str' (d : String) (kvs : List (String × Yaml)) (r : ValidationResult)
    (s : String) (h : objLookup kvs "name" = some (.str s)) :
    checkNameBlock d (.obj kvs) r = .ok
      { template_name := r.template_name,
        errors := r.errors ++ (if matchNamePy s then [] else [msgNameErr s]),
        warnings := r.warnings ++ (if s == pyReplace d "-" " " then []
          else [msgNameWarn (pyReplace d "-" " ") s]),
        passes := r.passes ++ (if matchNamePy s then [msgNamePass] else []) } := by
  rw [checkNameBlock_str d kvs r s h]
  cases hm : matchNamePy s <;> cases he : (s == pyReplace d "-" " ") <;>
    simp [ValidationResult.add_pass, ValidationResult.add_error, ValidationResult.add_warning]

theorem checkDescBlock_str' (kvs : List (String × Yaml)) (r : ValidationResult)
    (s : String) (h : objLookup kvs "description" = some (.str s)) :
    checkDescBlock (.obj kvs) r = .ok
      { template_name := r.template_name,
        errors := r.errors,
        warnings := r.warnings ++ (if descEndsPunct s then [] else [msgDescWarn]),
        passes := r.passes ++ (if descEndsPunct s then [msgDescPass] else []) } := by
  rw [checkDescBlock_str kvs r s h]
  cases hm : descEndsPunct s <;>
    simp [ValidationResult.add_pass, ValidationResult.add_warning]

theorem checkVersionBlock_str' (kvs : List (String × Yaml)) (r : ValidationResult)
    (s : String) (h : objLookup kvs "version" = some (.str s)) :
    checkVersionBlock (.obj kvs) r = .ok
      { template_name := r.template_name,
        errors := r.errors ++ (if matchSemverPy s then [] else [msgVersionErr s]),
        warnings := r.warnings,
        passes := r.passes ++ (if matchSemverPy s then [msgVersionPass] else []) } := by
  rw [checkVersionBlock_str kvs r s h]
  cases hm : matchSemverPy s <;>
    simp [ValidationResult.add_pass, ValidationResult.add_error]

theorem checkNameBlock_nonstr (d : String) (kvs : List (String × Yaml)) (r : ValidationResult)
    (v : Yaml) (h : objLookup kvs "name" = some v) (hv : ∀ s, v ≠ .str s) :
    ∃ e, checkNameBlock d (.obj kvs) r = .error e := by
  have hk := hasKeyKvs_of_lookup h
  cases v <;> simp [checkNameBlock, pyContains, hk, pySubscript, h, asStr]
  exact absurd rfl (hv _)

theorem checkDescBlock_nonstr (kvs : List (String × Yaml)) (r : ValidationResult)
    (v : Yaml) (h : objLookup kvs "description" = some v) (hv : ∀ s, v ≠ .str s) :
    ∃ e, checkDescBlock (.obj kvs) r = .error e := by
  have hk := hasKeyKvs_of_lookup h
  cases v <;> simp [checkDescBlock, pyContains, hk, pySubscript, h, asStr]
  exact absurd rfl (hv _)

/-! ## Claim C5 -/

/-- Inversion of a completed Descriptor Validator run on a mapping whose
`version` field holds the string `vs`: the final error and pass sequences
decompose into the per-block contributions. -/
theorem validate_metadata_obj_ok_inv (dirName : String) (kvs : List (String × Yaml))
    (vs : String) (r : ValidationResult) (m' : Option Yaml)
    (hv : objLookup kvs "version" = some (.str vs))
    (hrun : validate_metadata_json dirName (some (.ok (.obj kvs)))
      (ValidationResult.init dirName) = .ok (r, m')) :
    ∃ de1 dp1 dp2,
      (de1 = [] ∨ ∃ s, de1 = [msgNameErr s]) ∧
      (dp1 = [] ∨ dp1 = [msgNamePass]) ∧
      (dp2 = [] ∨ dp2 = [msgDescPass]) ∧
      r.errors = (reqDelta kvs ++ de1) ++ (if matchSemverPy vs then [] else [msgVersionErr vs]) ∧
      r.passes = ([msgMetaValidSyntax] ++ dp1 ++ dp2)
        ++ (if matchSemverPy vs then [msgVersionPass] else []) := by
  simp only [validate_metadata_json] at hrun
  rw [checkRequiredFields_obj] at hrun
  simp only [py_ok_bind] at hrun
  rcases hn : objLookup kvs "name" with _ | v
  · rw [checkNameBlock_none _ _ _ hn] at hrun
    simp only [py_ok_bind] at hrun
    rcases hdsc : objLookup kvs "description" with _ | w
    · rw [checkDescBlock_none _ _ hdsc] at hrun
      simp only [py_ok_bind] at hrun
      rw [checkVersionBlock_str' _ _ _ hv] at hrun
      simp only [py_ok_bind, py_pure, Except.ok.injEq, Prod.mk.injEq] at hrun
      refine ⟨[], [], [], Or.inl rfl, Or.inl rfl, Or.inl rfl, ?_, ?_⟩ <;>
        simp [← hrun.1, ValidationResult.init, ValidationResult.add_pass]
    · rcases w with _ | _ | _ | ds | _ | _
      case str =>
        rw [checkDescBlock_str' _ _ _ hdsc] at hrun
        simp only [py_ok_bind] at hrun
        rw [checkVersionBlock_str' _ _ _ hv] at hrun
        simp only [py_ok_bind, py_pure, Except.ok.injEq, Prod.mk.injEq] at hrun
        refine ⟨[], [], if descEndsPunct ds then [msgDescPass] else [],
          Or.inl rfl, Or.inl rfl, ?_, ?_, ?_⟩
        · cases descEndsPunct ds <;> simp
        · simp [← hrun.1, ValidationResult.init, ValidationResult.add_pass]
        · simp [← hrun.1, ValidationResult.init, ValidationResult.add_pass]
      all_goals
        (rcases checkDescBlock_nonstr kvs _ _ hdsc (by intro s h; cases h) with ⟨e, he⟩
         rw [he] at hrun
         simp only [py_error_bind] at hrun
         cases hrun)
  · rcases v with _ | _ | _ | s | _ | _
    case str =>
      rw [checkNameBlock_str' _ _ _ _ hn] at hrun
      simp only [py_ok_bind] at hrun
      rcases hdsc : objLookup kvs "description" with _ | w
      · rw [checkDescBlock_none _ _ hdsc] at hrun
        simp only [py_ok_bind] at hrun
        rw [checkVersionBlock_str' _ _ _ hv] at hrun
        simp only [py_ok_bind, py_pure, Except.ok.injEq, Prod.mk.injEq] at hrun
        refine ⟨if matchNamePy s then [] else [msgNameErr s],
          if matchNamePy s then [msgNamePass] else [], [],
          ?_, ?_, Or.inl rfl, ?_, ?_⟩
        · cases matchNamePy s <;> simp
        · cases matchNamePy s <;> simp
        · simp [← hrun.1, ValidationResult.init, ValidationResult.add_pass]
        · simp [← hrun.1, ValidationResult.init, ValidationResult.add_pass]
      · rcases w with _ | _ | _ | ds | _ | _
        case str =>
          rw [checkDescBlock_str' _ _ _ hdsc] at hrun
          simp only [py_ok_bind] at hrun
          rw [checkVersionBlock_str' _ _ _ hv] at hrun
          simp only [py_ok_bind, py_pure, Except.ok.injEq, Prod.mk.injEq] at hrun
          refine ⟨if matchNamePy s then [] else [msgNameErr s],
            if matchNamePy s then [msgNamePass] else [],
            if descEndsPunct ds then [msgDescPass] else [],
            ?_, ?_, ?_, ?_, ?_⟩
          · cases matchNamePy s <;> simp
          · cases matchNamePy s <;> simp
          · cases descEndsPunct ds <;> simp
          · simp [← hrun.1, ValidationResult.init, ValidationResult.add_pass]
          · simp [← hrun.1, ValidationResult.init, ValidationResult.add_pass]
        all_goals
          (rcases checkDescBlock_nonstr kvs _ _ hdsc (by intro s2 h; cases h) with ⟨e, he⟩
           rw [he] at hrun
           simp only [py_error_bind] at hrun
           cases hrun)
    all_goals
      (rcases checkNameBlock_nonstr dirName kvs _ _ hn (by intro s h; cases h) with ⟨e, he⟩
       rw [he] at hrun
       simp only [py_error_bind] at hrun
       cases hrun)

/-- C5 (amended): for every metadata mapping with a string `version`
field, a completed Descriptor Validator run records the semver error
exactly when the version fails Python's `re.match(r'^\d+\.\d+\.\d+$', .)`
— which also accepts one trailing newline — and records the semver pass
exactly when that match succeeds. -/
theorem C5_version_semver_python_match (dirName : String) (kvs : List (String × Yaml))
    (vs : String) (r : ValidationResult) (m' : Option Yaml)
    (hv : objLookup kvs "version" = some (.str vs))
    (hrun : validate_metadata_json dirName (some (.ok (.obj kvs)))
      (ValidationResult.init dirName) = .ok (r, m')) :
    (msgVersionErr vs ∈ r.errors ↔ matchSemverPy vs = false) ∧
    (msgVersionPass ∈ r.passes ↔ matchSemverPy vs = true) := by
  rcases validate_metadata_obj_ok_inv dirName kvs vs r m' hv hrun with
    ⟨de1, dp1, dp2, hd1, hp1, hp2, herr, hpass⟩
  have hkv : hasKeyKvs kvs "version" = true := hasKeyKvs_of_lookup hv
  constructor
  · constructor
    · intro hmem
      cases hm : matchSemverPy vs with
      | false => rfl
      | true =>
        exfalso
        rw [hm] at herr
        simp only [if_true, List.append_nil] at herr
        rw [herr] at hmem
        rcases List.mem_append.mp hmem with hmr | hmd
        · rcases List.mem_map.mp hmr with ⟨f, hf, heq⟩
          rcases List.mem_filter.mp hf with ⟨hf1, hf2⟩
          rcases List.mem_cons.mp hf1 with rfl | hf3
          · exact msgVersionErr_ne_missing_name vs heq.symm
          · rcases List.mem_cons.mp hf3 with rfl | hf4
            · exact msgVersionErr_ne_missing_desc vs heq.symm
            · rcases List.mem_cons.mp hf4 with rfl | hf5
              · rw [hkv] at hf2; cases hf2
              · cases hf5
        · rcases hd1 with rfl | ⟨s, rfl⟩
          · cases hmd
          · rcases List.mem_singleton.mp hmd with heq
            exact msgVersionErr_ne_nameErr vs s heq
    · intro hm
      rw [hm] at herr
      simp only [Bool.false_eq_true, if_false] at herr
      rw [herr]
      simp
  · constructor
    · intro hmem
      cases hm : matchSemverPy vs with
      | true => rfl
      | false =>
        exfalso
        rw [hm] at hpass
        simp only [Bool.false_eq_true, if_false, List.append_nil] at hpass
        rw [hpass] at hmem
        rcases hp1 with rfl | rfl <;> rcases hp2 with rfl | rfl <;>
          exact absurd hmem (by decide)
    · intro hm
      rw [hm] at hpass
      simp only [if_true] at hpass
      rw [hpass]
      simp

/-- C5 witness: the amended theorem applied at `version = "1.0.0"`. -/
theorem C5_version_semver_python_match_witness :
    (msgVersionErr "1.0.0" ∈ resC5.errors ↔ matchSemverPy "1.0.0" = false) ∧
    (msgVersionPass ∈ resC5.passes ↔ matchSemverPy "1.0.0" = true) :=
  C5_version_semver_python_match "demo" kvsC5 "1.0.0" resC5 (some (.obj kvsC5)) rfl rfl

/-- C5 counterexample: `"1.0.0\n"` is not a full match of
`^\d+\.\d+\.\d+$` (it has a trailing character), yet the validator adds
the semver pass and no semver error, because Python's `re.match` with `$`
accepts one final newline.  This refutes the claim that an error is added
exactly on full-match failure. -/
theorem C5_version_full_match_counterexample :
    semverFullMatch "1.0.0\n" = false ∧
    ∃ r, validate_metadata_json "demo" (some (.ok (.obj kvsC5x)))
        (ValidationResult.init "demo") = .ok (r, some (.obj kvsC5x))
      ∧ msgVersionPass ∈ r.passes ∧ msgVersionErr "1.0.0\n" ∉ r.errors :=
  ⟨by decide,
    ⟨⟨"demo", [msgMissingField "name", msgMissingField "description"], [],
      [msgMetaValidSyntax, msgVersionPass]⟩, rfl, by decide, by decide⟩⟩

/-! ## Claim C4 -/

/-- C4: a syntactically valid pipeline document whose `pipeline` key maps
to `null` makes `validate_pipeline_yaml` raise an uncaught `TypeError`
(`'stages' not in pipeline_section` with `pipeline_section = None`), so
validation does not convert this failure into a recorded error message:
the claimed crash-freedom fails. -/
theorem C4_pipeline_null_crash :
    validate_pipeline_yaml (fun l => l) (some (.ok pipeNullDoc)) (ValidationResult.init "demo")
      = .error "TypeError: argument of type NoneType is not iterable" := rfl

/-! ## Claim C6 -/

/-- C6: a document whose only fenced code block is tagged `python` still
yields the missing-language warning with count 1 and not the pass: the
scanner `re.findall(r'```(\w*)\n', content)` also matches the closing
fence, which contributes an empty "language tag". -/
theorem C6_closing_fence_miscount :
    findBlocks wikiC6.data = ["python", ""] ∧
    (validate_wiki_md (some (.ok wikiC6)) none (ValidationResult.init "demo")).warnings
      = [msgSectMissing "overview", msgSectMissing "key capabilities",
         msgSectMissing "inputs", msgCodeBlocks 1] ∧
    msgCodeBlocksPass ∉
      (validate_wiki_md (some (.ok wikiC6)) none (ValidationResult.init "demo")).passes :=
  ⟨rfl, rfl, by decide⟩

/-! ## Claim C7 -/

set_option maxRecDepth 4000 in
/-- C7: two admissible set-iteration orders (both permutations of the
deduplicated duplicate list, as Python hash randomization permits across
two runs of the unchanged program) produce reports that are not
byte-identical: the duplicate-stage-names error renders the set in
different element orders. -/
theorem C7_report_not_run_independent :
    validSetOrder (fun l => l) ∧ validSetOrder List.reverse ∧
    ∃ r1 r2, validate_template (fun l => l) tDup = .ok r1 ∧
      validate_template List.reverse tDup = .ok r2 ∧
      r1.print_report ≠ r2.print_report :=
  ⟨fun l => List.Perm.refl l, fun l => List.reverse_perm l, _, _, rfl, rfl, by decide⟩

/-! ## Stage-name bookkeeping and message families of the stage loop -/

theorem msgStageDups_data (st : String) :
    (msgStageDups st).data = "pipeline.yaml: Duplicate stage names: ".data ++ st.data := by
  simp [msgStageDups, toString, String.data_append]

theorem msgStageNotMap_data (i : Nat) :
    (msgStageNotMap i).data =
      "pipeline.yaml: Stage ".data ++ ((toString i).data ++ " must be a mapping".data) := by
  simp [msgStageNotMap, toString, String.data_append]

theorem msgStageNoName_data (i : Nat) :
    (msgStageNoName i).data =
      "pipeline.yaml: Stage ".data
        ++ ((toString i).data ++ (" missing " ++ apos ++ "name" ++ apos ++ " field").data) := by
  simp [msgStageNoName, toString, String.data_append]

theorem msgStepDups_data (lb st : String) :
    (msgStepDups lb st).data =
      ("pipeline.yaml: Duplicate step names in stage " ++ apos).data
        ++ (lb.data ++ ((apos ++ ": ").data ++ st.data)) := by
  simp [msgStepDups, toString, String.data_append]

theorem msgPipeNoVersion_notStageDup : notStageDup msgPipeNoVersion := by
  intro st
  apply string_ne_of_getElem 15
  rw [msgStageDups_data, List.getElem?_append_left (by decide)]
  decide

theorem msgStageNotMap_notStageDup (i : Nat) : notStageDup (msgStageNotMap i) := by
  intro st
  apply string_ne_of_getElem 15
  have e1 : ("pipeline.yaml: Stage ".data
      ++ ((toString i).data ++ " must be a mapping".data))[15]?
      = "pipeline.yaml: Stage ".data[15]? := List.getElem?_append_left (by decide)
  have e2 : ("pipeline.yaml: Duplicate stage names: ".data ++ st.data)[15]?
      = "pipeline.yaml: Duplicate stage names: ".data[15]? :=
    List.getElem?_append_left (by decide)
  rw [msgStageDups_data, msgStageNotMap_data, e1, e2]
  decide

theorem msgStageNoName_notStageDup (i : Nat) : notStageDup (msgStageNoName i) := by
  intro st
  apply string_ne_of_getElem 15
  have e1 : ("pipeline.yaml: Stage ".data
      ++ ((toString i).data ++ (" missing " ++ apos ++ "name" ++ apos ++ " field").data))[15]?
      = "pipeline.yaml: Stage ".data[15]? := List.getElem?_append_left (by decide)
  have e2 : ("pipeline.yaml: Duplicate stage names: ".data ++ st.data)[15]?
      = "pipeline.yaml: Duplicate stage names: ".data[15]? :=
    List.getElem?_append_left (by decide)
  rw [msgStageDups_data, msgStageNoName_data, e1, e2]
  decide

theorem msgStepDups_notStageDup (lb st' : String) : notStageDup (msgStepDups lb st') := by
  intro st
  apply string_ne_of_getElem 27
  have e1 : (("pipeline.yaml: Duplicate step names in stage " ++ apos).data
      ++ (lb.data ++ ((apos ++ ": ").data ++ st'.data)))[27]?
      = ("pipeline.yaml: Duplicate step names in stage " ++ apos).data[27]? :=
    List.getElem?_append_left (by decide)
  have e2 : ("pipeline.yaml: Duplicate stage names: ".data ++ st.data)[27]?
      = "pipeline.yaml: Duplicate stage names: ".data[27]? :=
    List.getElem?_append_left (by decide)
  rw [msgStageDups_data, msgStepDups_data, e1, e2]
  decide

/-! ## Inversion of the stage loop -/

theorem stepLatestCheck_ok_inv (j : Nat) (skvs : List (String × Yaml)) (r r' : ValidationResult)
    (h : stepLatestCheck j skvs r = .ok r') :
    r'.errors = r.errors ∧ r'.passes = r.passes := by
  unfold stepLatestCheck at h
  repeat' split at h
  all_goals
    first
    | (simp only [py_pure, Except.ok.injEq] at h; subst h; exact ⟨rfl, rfl⟩)
    | (rw [py_bind_ok] at h
       obtain ⟨img, _, h⟩ := h
       split at h <;>
         (simp only [py_pure, Except.ok.injEq] at h; subst h; exact ⟨rfl, rfl⟩))

theorem processStep_ok_inv (label : String) (j : Nat) (step : Yaml) (r : ValidationResult)
    (names : List Yaml) (r' : ValidationResult) (names' : List Yaml)
    (h : processStep label j step r names = .ok (r', names')) :
    r'.errors = r.errors ∧ r'.passes = r.passes := by
  unfold processStep at h
  split at h
  · rename_i skvs
    cases hname : hasKeyKvs skvs "name" <;>
      simp only [hname, Bool.false_eq_true, if_true, if_false] at h <;>
      (rw [py_bind_ok] at h
       obtain ⟨rr, hrr, h⟩ := h
       simp only [py_pure, Except.ok.injEq, Prod.mk.injEq] at h
       obtain ⟨h1, -⟩ := h
       obtain ⟨he, hp⟩ := stepLatestCheck_ok_inv _ _ _ _ hrr
       subst h1
       exact ⟨he, hp⟩)
  · simp only [py_pure, Except.ok.injEq, Prod.mk.injEq] at h
    obtain ⟨h1, -⟩ := h
    subst h1
    exact ⟨rfl, rfl⟩

theorem processSteps_ok_inv (label : String) : ∀ (steps : List Yaml) (j : Nat)
    (r : ValidationResult) (names : List Yaml) (r' : ValidationResult) (names' : List Yaml),
    processSteps label j steps r names = .ok (r', names') →
    r'.errors = r.errors ∧ r'.passes = r.passes := by
  intro steps
  induction steps with
  | nil =>
    intro j r names r' names' h
    simp only [processSteps, py_pure, Except.ok.injEq, Prod.mk.injEq] at h
    obtain ⟨h1, -⟩ := h
    subst h1
    exact ⟨rfl, rfl⟩
  | cons step rest ih =>
    intro j r names r' names' h
    unfold processSteps at h
    rw [py_bind_ok] at h
    obtain ⟨⟨r1, names1⟩, h1, h2⟩ := h
    obtain ⟨he1, hp1⟩ := processStep_ok_inv _ _ _ _ _ _ _ h1
    obtain ⟨he2, hp2⟩ := ih _ _ _ _ _ h2
    exact ⟨he2.trans he1, hp2.trans hp1⟩

theorem platformCheck_ok_inv (i : Nat) (kvs : List (String × Yaml)) (r r' : ValidationResult)
    (h : platformCheck i kvs r = .ok r') :
    r'.errors = r.errors ∧ r'.passes = r.passes := by
  unfold platformCheck at h
  split at h
  · rw [py_bind_ok] at h
    obtain ⟨bos, -, h⟩ := h
    rw [py_bind_ok] at h
    obtain ⟨barch, -, h⟩ := h
    simp only [py_pure, Except.ok.injEq] at h
    subst h
    constructor <;> (cases bos <;> cases barch <;> rfl)
  · simp only [py_pure, Except.ok.injEq] at h
    subst h
    exact ⟨rfl, rfl⟩

theorem stepsCheck_ok_inv (sord : List Yaml → List Yaml) (i : Nat)
    (kvs : List (String × Yaml)) (r r' : ValidationResult)
    (h : stepsCheck sord i kvs r = .ok r') :
    ∃ de, r'.errors = r.errors ++ de ∧ (∀ e ∈ de, notStageDup e) ∧ r'.passes = r.passes := by
  unfold stepsCheck at h
  split at h
  · rw [py_bind_ok] at h
    obtain ⟨items, -, h⟩ := h
    rw [py_bind_ok] at h
    obtain ⟨⟨r1, stepNames⟩, h1, h2⟩ := h
    obtain ⟨he1, hp1⟩ := processSteps_ok_inv _ _ _ _ _ _ _ h1
    simp only [py_pure, Except.ok.injEq] at h2
    subst h2
    by_cases hd : (dupList stepNames).isEmpty = true
    · exact ⟨[], by simp [hd, he1], by simp, by simp [hd, hp1]⟩
    · refine ⟨[msgStepDups (stageLabel kvs i) (renderSet (sord (dedupPy (dupList stepNames))))],
        ?_, ?_, ?_⟩
      · simp [hd, ValidationResult.add_error, he1]
      · intro e he
        rcases List.mem_singleton.mp he with rfl
        exact msgStepDups_notStageDup _ _
      · simp [hd, ValidationResult.add_error, hp1]
  · simp only [py_pure, Except.ok.injEq] at h
    subst h
    exact ⟨[], by simp, by simp, rfl⟩

theorem processStage_ok_inv (sord : List Yaml → List Yaml) (i : Nat) (stage : Yaml)
    (r r' : ValidationResult) (ns : List Yaml)
    (h : processStage sord i stage r = .ok (r', ns)) :
    ns = (stageName? stage).toList ∧
    ∃ de, r'.errors = r.errors ++ de ∧ (∀ e ∈ de, notStageDup e) ∧ r'.passes = r.passes := by
  unfold processStage at h
  split at h
  · rename_i kvs
    cases hname : hasKeyKvs kvs "name" <;>
      simp only [hname, Bool.false_eq_true, if_true, if_false] at h <;>
      (rw [py_bind_ok] at h
       obtain ⟨r1, hplat, h⟩ := h
       rw [py_bind_ok] at h
       obtain ⟨r2, hsteps, h⟩ := h
       simp only [py_pure, Except.ok.injEq, Prod.mk.injEq] at h
       obtain ⟨h1, h2⟩ := h
       obtain ⟨hpe, hpp⟩ := platformCheck_ok_inv _ _ _ _ hplat
       obtain ⟨de, hse, hsd, hsp⟩ := stepsCheck_ok_inv _ _ _ _ _ hsteps
       subst h1)
    · refine ⟨by simp [← h2, stageName?, hname], msgStageNoName i :: de, ?_, ?_, ?_⟩
      · rw [hse, hpe]
        simp [ValidationResult.add_error]
      · intro e he
        rcases List.mem_cons.mp he with rfl | he2
        · exact msgStageNoName_notStageDup i
        · exact hsd e he2
      · rw [hsp, hpp]; rfl
    · refine ⟨by simp [← h2, stageName?, hname], de, ?_, hsd, ?_⟩
      · rw [hse, hpe]
      · rw [hsp, hpp]
  · rename_i hne
    simp only [py_pure, Except.ok.injEq, Prod.mk.injEq] at h
    obtain ⟨h1, h2⟩ := h
    subst h1
    have hnone : stageName? stage = none := by
      unfold stageName?
      cases stage <;> first | rfl | (exfalso; exact hne _ rfl)
    refine ⟨by simp [← h2, hnone], [msgStageNotMap i], by simp [ValidationResult.add_error], ?_, rfl⟩
    intro e he
    rcases List.mem_singleton.mp he with rfl
    exact msgStageNotMap_notStageDup i

theorem filterMap_cons_toList (f : Yaml → Option Yaml) (a : Yaml) (l : List Yaml) :
    List.filterMap f (a :: l) = (f a).toList ++ List.filterMap f l := by
  cases hf : f a <;> simp [List.filterMap_cons, hf]

theorem processStages_ok_inv (sord : List Yaml → List Yaml) : ∀ (stages : List Yaml) (i : Nat)
    (r r' : ValidationResult) (ns : List Yaml),
    processStages sord i stages r = .ok (r', ns) →
    ns = recordedStageNames stages ∧
    ∃ de, r'.errors = r.errors ++ de ∧ (∀ e ∈ de, notStageDup e) ∧ r'.passes = r.passes := by
  intro stages
  induction stages with
  | nil =>
    intro i r r' ns h
    simp only [processStages, py_pure, Except.ok.injEq, Prod.mk.injEq] at h
    obtain ⟨h1, h2⟩ := h
    subst h1
    exact ⟨by simp [← h2, recordedStageNames], [], by simp, by simp, rfl⟩
  | cons stage rest ih =>
    intro i r r' ns h
    unfold processStages at h
    rw [py_bind_ok] at h
    obtain ⟨⟨r1, ns1⟩, h1, h⟩ := h
    rw [py_bind_ok] at h
    obtain ⟨⟨r2, ns2⟩, h2, h⟩ := h
    simp only [py_pure, Except.ok.injEq, Prod.mk.injEq] at h
    obtain ⟨hr, hn⟩ := h
    subst hr
    obtain ⟨hns1, de1, he1, hd1, hp1⟩ := processStage_ok_inv _ _ _ _ _ _ h1
    obtain ⟨hns2, de2, he2, hd2, hp2⟩ := ih _ _ _ _ h2
    refine ⟨?_, de1 ++ de2, ?_, ?_, ?_⟩
    · rw [← hn, hns1, hns2]
      unfold recordedStageNames
      rw [filterMap_cons_toList]
    · rw [he2, he1, List.append_assoc]
    · intro e he
      rcases List.mem_append.mp he with h | h
      · exact hd1 e h
      · exact hd2 e h
    · rw [hp2, hp1]

theorem processInput_shape (name : String) (idef : Yaml) (r : ValidationResult) :
    (processInput name idef r).errors = r.errors ∧ (processInput name idef r).passes = r.passes := by
  unfold processInput
  cases idef <;> try exact ⟨rfl, rfl⟩
  constructor <;> (dsimp only; repeat' split) <;> rfl

theorem processInputs_shape : ∀ (items : List (String × Yaml)) (r : ValidationResult),
    (processInputs items r).errors = r.errors ∧ (processInputs items r).passes = r.passes := by
  intro items
  induction items with
  | nil => intro r; exact ⟨rfl, rfl⟩
  | cons kv rest ih =>
    intro r
    obtain ⟨he1, hp1⟩ := processInput_shape kv.1 kv.2 r
    obtain ⟨he2, hp2⟩ := ih (processInput kv.1 kv.2 r)
    exact ⟨by rw [processInputs, he2, he1], by rw [processInputs, hp2, hp1]⟩

theorem checkInputsBlock_ok_inv (sect : Yaml) (r r' : ValidationResult)
    (h : checkInputsBlock sect r = .ok r') :
    r'.errors = r.errors ∧ ∃ dp, r'.passes = r.passes ++ dp := by
  unfold checkInputsBlock at h
  rw [py_bind_ok] at h
  obtain ⟨hasInp, -, h⟩ := h
  split at h
  · rw [py_bind_ok] at h
    obtain ⟨inputs, -, h⟩ := h
    split at h
    · rename_i ikvs
      simp only [py_pure, Except.ok.injEq] at h
      subst h
      obtain ⟨he, hp⟩ := processInputs_shape ikvs (r.add_pass (msgInputsCount ikvs.length))
      exact ⟨he, [msgInputsCount ikvs.length], by rw [hp]; rfl⟩
    · simp only [py_pure, Except.ok.injEq] at h
      subst h
      exact ⟨rfl, [], by simp⟩
  · simp only [py_pure, Except.ok.injEq] at h
    subst h
    exact ⟨rfl, [], by simp [ValidationResult.add_warning]⟩

/-- Characterization of the stages block when `stages` is present and a
list: the uniqueness pass or the single duplicate-set error, after the
per-stage errors. -/
theorem checkStagesBlock_arr (sord : List Yaml → List Yaml) (skvs : List (String × Yaml))
    (L : List Yaml) (r r' : ValidationResult)
    (hst : objLookup skvs "stages" = some (.arr L))
    (h : checkStagesBlock sord (.obj skvs) r = .ok r') :
    ∃ de, (∀ e ∈ de, notStageDup e) ∧
      (dupList (recordedStageNames L) = [] →
        r'.errors = r.errors ++ de ∧ r'.passes = r.passes ++ [msgStagesUnique]) ∧
      (dupList (recordedStageNames L) ≠ [] →
        r'.errors = r.errors ++ de
          ++ [msgStageDups (renderSet (sord (dedupPy (dupList (recordedStageNames L)))))]
          ∧ r'.passes = r.passes) := by
  have hk : hasKeyKvs skvs "stages" = true := hasKeyKvs_of_lookup hst
  unfold checkStagesBlock at h
  simp only [pyContains, py_ok_bind, hk, Bool.not_true, Bool.false_eq_true, if_false,
    pySubscript, hst, py_ok_bind] at h
  rw [py_bind_ok] at h
  obtain ⟨⟨r1, stageNames⟩, h1, h⟩ := h
  obtain ⟨hns, de, he, hd, hp⟩ := processStages_ok_inv sord L 0 r r1 stageNames h1
  subst hns
  refine ⟨de, hd, ?_, ?_⟩
  · intro hdup
    rw [hdup] at h
    simp only [List.isEmpty_nil, if_true, py_pure, Except.ok.injEq] at h
    subst h
    exact ⟨by simp [ValidationResult.add_pass, he], by simp [ValidationResult.add_pass, hp]⟩
  · intro hdup
    have hie : (dupList (recordedStageNames L)).isEmpty = false := by
      cases hcase : (dupList (recordedStageNames L)).isEmpty
      · rfl
      · exact absurd (List.isEmpty_iff.mp hcase) hdup
    rw [hie] at h
    simp only [Bool.false_eq_true, if_false, py_pure, Except.ok.injEq] at h
    subst h
    constructor
    · simp [ValidationResult.add_error, he]
    · simp [ValidationResult.add_error, hp]

/-! ## List lemmas for duplicate counting -/

theorem two_le_countP (p : Yaml → Bool) : ∀ (l : List Yaml) (i j : Nat) (a b : Yaml),
    i ≠ j → l[i]? = some a → l[j]? = some b → p a = true → p b = true →
    2 ≤ l.countP p := by
  intro l
  induction l with
  | nil => intro i j a b _ ha _ _ _; simp at ha
  | cons x t ih =>
    intro i j a b hij ha hb hpa hpb
    cases i with
    | zero =>
      cases j with
      | zero => exact absurd rfl hij
      | succ j' =>
        simp only [List.getElem?_cons_zero, Option.some.injEq] at ha
        simp only [List.getElem?_cons_succ] at hb
        subst ha
        have hbmem : b ∈ t := List.getElem?_mem hb
        have h1 : 0 < t.countP p := List.countP_pos_iff.mpr ⟨b, hbmem, hpb⟩
        rw [List.countP_cons, hpa, if_pos rfl]
        omega
    | succ i' =>
      cases j with
      | zero =>
        simp only [List.getElem?_cons_zero, Option.some.injEq] at hb
        simp only [List.getElem?_cons_succ] at ha
        subst hb
        have hamem : a ∈ t := List.getElem?_mem ha
        have h1 : 0 < t.countP p := List.countP_pos_iff.mpr ⟨a, hamem, hpa⟩
        rw [List.countP_cons, hpb, if_pos rfl]
        omega
      | succ j' =>
        simp only [List.getElem?_cons_succ] at ha hb
        have h1 := ih i' j' a b (fun hc => hij (by rw [hc])) ha hb hpa hpb
        rw [List.countP_cons]
        omega

theorem countP_filterMap_my (p : Yaml → Bool) (f : Yaml → Option Yaml) : ∀ l : List Yaml,
    (l.filterMap f).countP p = l.countP (fun a => ((f a).map p).getD false) := by
  intro l
  induction l with
  | nil => rfl
  | cons x t ih =>
    cases hf : f x with
    | none =>
      rw [List.filterMap_cons, hf, List.countP_cons, ih]
      simp [hf]
    | some y =>
      rw [List.filterMap_cons, hf, List.countP_cons, List.countP_cons, ih]
      simp [hf]

theorem countPy_eq_countP (l : List Yaml) (x : Yaml) :
    countPy l x = l.countP (fun e => pyEq e x) := by
  rw [countPy, List.countP_eq_length_filter]

/-! ## Deduplication lemmas -/

theorem dedupPyGo_sub : ∀ (l seen : List Yaml), ∀ m ∈ dedupPyGo seen l, m ∈ l := by
  intro l
  induction l with
  | nil => intro seen m hm; cases hm
  | cons x rest ih =>
    intro seen m hm
    unfold dedupPyGo at hm
    split at hm
    · exact List.mem_cons_of_mem _ (ih seen m hm)
    · rcases List.mem_cons.mp hm with rfl | hm2
      · exact List.mem_cons_self _ _
      · exact List.mem_cons_of_mem _ (ih (seen ++ [x]) m hm2)

theorem dedupPy_sub (l : List Yaml) : ∀ m ∈ dedupPy l, m ∈ l :=
  dedupPyGo_sub l []

theorem dedupPyGo_represents : ∀ (l seen : List Yaml) (n : Yaml), n ∈ l →
    (∃ m ∈ dedupPyGo seen l, pyEq m n = true) ∨ (∃ m ∈ seen, pyEq m n = true) := by
  intro l
  induction l with
  | nil => intro seen n hn; cases hn
  | cons x rest ih =>
    intro seen n hn
    rcases List.mem_cons.mp hn with rfl | hr
    · by_cases hs : (seen.any fun s => pyEq s n) = true
      · right
        rcases List.any_eq_true.mp hs with ⟨m, hm, hpm⟩
        exact ⟨m, hm, hpm⟩
      · left
        unfold dedupPyGo
        rw [if_neg hs]
        exact ⟨n, List.mem_cons_self _ _, pyEq_refl n⟩
    · by_cases hs : (seen.any fun s => pyEq s x) = true
      · unfold dedupPyGo
        rw [if_pos hs]
        exact ih seen n hr
      · unfold dedupPyGo
        rw [if_neg hs]
        rcases ih (seen ++ [x]) n hr with ⟨m, hm, hpm⟩ | ⟨m, hm, hpm⟩
        · exact Or.inl ⟨m, List.mem_cons_of_mem _ hm, hpm⟩
        · rcases List.mem_append.mp hm with hm1 | hm2
          · exact Or.inr ⟨m, hm1, hpm⟩
          · rcases List.mem_singleton.mp hm2 with rfl
            exact Or.inl ⟨m, List.mem_cons_self _ _, hpm⟩

theorem dedupPy_represents (l : List Yaml) (n : Yaml) (hn : n ∈ l) :
    ∃ m ∈ dedupPy l, pyEq m n = true := by
  rcases dedupPyGo_represents l [] n hn with h | ⟨m, hm, -⟩
  · exact h
  · cases hm

/-! ## Claim C3 -/

/-- Inversion of a completed Pipeline Validator run on a mapping whose
`pipeline` section is a mapping with a list-valued `stages` entry. -/
theorem validate_pipeline_obj_inv (sord : List Yaml → List Yaml)
    (pkvs skvs : List (String × Yaml)) (L : List Yaml) (dn : String)
    (r : ValidationResult) (v : Option Yaml)
    (hsect : objLookup pkvs "pipeline" = some (.obj skvs))
    (hstages : objLookup skvs "stages" = some (.arr L))
    (hrun : validate_pipeline_yaml sord (some (.ok (.obj pkvs)))
      (ValidationResult.init dn) = .ok (r, v)) :
    ∃ de, (∀ e ∈ de, notStageDup e) ∧
      (dupList (recordedStageNames L) = [] →
        r.errors = de ∧ msgStagesUnique ∈ r.passes) ∧
      (dupList (recordedStageNames L) ≠ [] →
        r.errors = de
          ++ [msgStageDups (renderSet (sord (dedupPy (dupList (recordedStageNames L)))))]) := by
  have hk2 : hasKeyKvs pkvs "pipeline" = true := hasKeyKvs_of_lookup hsect
  have hsectD : objGetD pkvs "pipeline" .null = .obj skvs := by
    simp [objGetD, hsect]
  simp only [validate_pipeline_yaml, hk2, Bool.not_true, Bool.false_eq_true, if_false,
    hsectD, py_ok_bind] at hrun
  rw [py_bind_ok] at hrun
  obtain ⟨r1, hstagesRun, hrun⟩ := hrun
  rw [py_bind_ok] at hrun
  obtain ⟨r2, hinputs, hrun⟩ := hrun
  simp only [py_pure, Except.ok.injEq, Prod.mk.injEq] at hrun
  obtain ⟨hr, -⟩ := hrun
  subst hr
  obtain ⟨hie, dp, hip⟩ := checkInputsBlock_ok_inv _ _ _ hinputs
  obtain ⟨de, hd, hdup0, hdup1⟩ := checkStagesBlock_arr sord skvs L _ _ hstages hstagesRun
  set rv := (if !hasKeyKvs pkvs "version" then
        ((ValidationResult.init dn).add_pass msgPipeValidSyntax).add_error msgPipeNoVersion
      else if !pyEq (objGetD pkvs "version" .null) (.int 1) then
        ((ValidationResult.init dn).add_pass msgPipeValidSyntax).add_warning
          (msgPipeVersionWarn (pyStr (objGetD pkvs "version" .null)))
      else
        ((ValidationResult.init dn).add_pass msgPipeValidSyntax).add_pass
          msgPipeVersionPass) with hrv
  have hrve : ∃ de0, rv.errors = de0 ∧ ∀ e ∈ de0, notStageDup e := by
    rw [hrv]
    cases hasKeyKvs pkvs "version" <;>
      cases pyEq (objGetD pkvs "version" .null) (.int 1)
    all_goals (
      simp only [Bool.not_true, Bool.not_false, Bool.false_eq_true, if_true, if_false])
    all_goals first
      | exact ⟨[msgPipeNoVersion], rfl, by
          intro e he
          rcases List.mem_singleton.mp he with rfl
          exact msgPipeNoVersion_notStageDup⟩
      | exact ⟨[], rfl, by intro e he; cases he⟩
  obtain ⟨de0, hde0, hd0⟩ := hrve
  refine ⟨de0 ++ de, ?_, ?_, ?_⟩
  · intro e he
    rcases List.mem_append.mp he with h | h
    · exact hd0 e h
    · exact hd e h
  · intro hdup
    obtain ⟨he1, hp1⟩ := hdup0 hdup
    constructor
    · rw [hie, he1, hde0]
    · rw [hip]
      exact List.mem_append_left _ (by rw [hp1]; exact List.mem_append_right _ (by simp))
  · intro hdup
    obtain he1 := (hdup1 hdup).1
    rw [hie, he1, hde0, List.append_assoc]

/-- C3: in a completed Pipeline Validator run over a document whose
`pipeline.stages` is a list, if two distinct stages share the same name
then the errors contain exactly one duplicate-stage-names error, carrying
the set of duplicated recorded names (rendered in the ambient set order);
the listed set consists exactly of the recorded names occurring more than
once (up to Python `==`); and when no recorded name is duplicated the
validator instead records the uniqueness pass and no duplicate error. -/
theorem C3_duplicate_stage_names (sord : List Yaml → List Yaml)
    (pkvs skvs : List (String × Yaml)) (L : List Yaml) (dn : String)
    (r : ValidationResult) (v : Option Yaml)
    (hsect : objLookup pkvs "pipeline" = some (.obj skvs))
    (hstages : objLookup skvs "stages" = some (.arr L))
    (hrun : validate_pipeline_yaml sord (some (.ok (.obj pkvs)))
      (ValidationResult.init dn) = .ok (r, v)) :
    ((∃ i j : Nat, ∃ si sj a b : Yaml, i ≠ j ∧ L[i]? = some si ∧ L[j]? = some sj ∧
        stageName? si = some a ∧ stageName? sj = some b ∧ pyEq a b = true) →
      ∃ pre post, r.errors = pre
          ++ msgStageDups (renderSet (sord (dedupPy (dupList (recordedStageNames L))))) :: post
        ∧ (∀ e ∈ pre, notStageDup e) ∧ (∀ e ∈ post, notStageDup e)) ∧
    (∀ m ∈ dedupPy (dupList (recordedStageNames L)),
      m ∈ recordedStageNames L ∧ 1 < countPy (recordedStageNames L) m) ∧
    (∀ n ∈ recordedStageNames L, 1 < countPy (recordedStageNames L) n →
      ∃ m ∈ dedupPy (dupList (recordedStageNames L)), pyEq m n = true) ∧
    (dupList (recordedStageNames L) = [] →
      msgStagesUnique ∈ r.passes ∧ ∀ e ∈ r.errors, notStageDup e) := by
  obtain ⟨de, hd, hdup0, hdup1⟩ :=
    validate_pipeline_obj_inv sord pkvs skvs L dn r v hsect hstages hrun
  refine ⟨?_, ?_, ?_, ?_⟩
  · rintro ⟨i, j, si, sj, a, b, hij, hsi, hsj, ha, hb, hab⟩
    have hbR : b ∈ recordedStageNames L :=
      List.mem_filterMap.mpr ⟨sj, List.getElem?_mem hsj, hb⟩
    have hcount : 1 < countPy (recordedStageNames L) b := by
      rw [countPy_eq_countP]
      unfold recordedStageNames
      rw [countP_filterMap_my]
      have h2 := two_le_countP (fun s => ((stageName? s).map (fun e => pyEq e b)).getD false)
        L i j si sj hij hsi hsj (by simp [ha, hab]) (by simp [hb, pyEq_refl])
      omega
    have hdup : dupList (recordedStageNames L) ≠ [] := by
      have hmemdup : b ∈ dupList (recordedStageNames L) := by
        rw [dupList, List.mem_filter]
        exact ⟨hbR, by simpa using hcount⟩
      exact List.ne_nil_of_mem hmemdup
    obtain he := hdup1 hdup
    exact ⟨de, [], by rw [he], hd, fun e h => absurd h (List.not_mem_nil e)⟩
  · intro m hm
    have hmd := dedupPy_sub _ m hm
    rw [dupList, List.mem_filter] at hmd
    exact ⟨hmd.1, by simpa using hmd.2⟩
  · intro n hn hcount
    apply dedupPy_represents
    rw [dupList, List.mem_filter]
    exact ⟨hn, by simpa using hcount⟩
  · intro hdup
    obtain ⟨he, hp⟩ := hdup0 hdup
    exact ⟨hp, by rw [he]; exact hd⟩

/-- C3 witness: the theorem applied to a pipeline with two stages both
named `a`. -/
theorem C3_duplicate_stage_names_witness :
    ((∃ i j : Nat, ∃ si sj a b : Yaml, i ≠ j ∧ stagesC3[i]? = some si ∧
        stagesC3[j]? = some sj ∧
        stageName? si = some a ∧ stageName? sj = some b ∧ pyEq a b = true) →
      ∃ pre post, resC3.errors = pre
          ++ msgStageDups
            (renderSet ((fun l => l) (dedupPy (dupList (recordedStageNames stagesC3))))) :: post
        ∧ (∀ e ∈ pre, notStageDup e) ∧ (∀ e ∈ post, notStageDup e)) ∧
    (∀ m ∈ dedupPy (dupList (recordedStageNames stagesC3)),
      m ∈ recordedStageNames stagesC3 ∧ 1 < countPy (recordedStageNames stagesC3) m) ∧
    (∀ n ∈ recordedStageNames stagesC3, 1 < countPy (recordedStageNames stagesC3) n →
      ∃ m ∈ dedupPy (dupList (recordedStageNames stagesC3)), pyEq m n = true) ∧
    (dupList (recordedStageNames stagesC3) = [] →
      msgStagesUnique ∈ resC3.passes ∧ ∀ e ∈ resC3.errors, notStageDup e) :=
  C3_duplicate_stage_names (fun l => l) pkvsC3 skvsC3 stagesC3 "demo" resC3
    (some (.obj pkvsC3)) rfl rfl rfl

/-! ## Claim C10 -/

theorem processStage_benign (sord : List Yaml → List Yaml) (i : Nat) (s : Yaml)
    (r : ValidationResult) (h : benignStage s = true) :
    ∃ m, processStage sord i s r = .ok (r.add_error m, []) := by
  cases s
  case obj kvs =>
    unfold benignStage at h
    simp only [Bool.and_eq_true, Bool.not_eq_true'] at h
    obtain ⟨⟨h1, h2⟩, h3⟩ := h
    exact ⟨msgStageNoName i, by
      simp [processStage, platformCheck, stepsCheck, h1, h2, h3]⟩
  all_goals exact ⟨msgStageNotMap i, rfl⟩

theorem processStages_benign (sord : List Yaml → List Yaml) : ∀ (stages : List Yaml)
    (i : Nat) (r : ValidationResult), stages.all benignStage = true →
    ∃ de : List String,
      processStages sord i stages r = .ok ({ r with errors := r.errors ++ de }, [])
        ∧ de.length = stages.length := by
  intro stages
  induction stages with
  | nil =>
    intro i r _
    exact ⟨[], by simp [processStages], rfl⟩
  | cons s rest ih =>
    intro i r h
    rw [List.all_cons, Bool.and_eq_true] at h
    obtain ⟨hs, hrest⟩ := h
    obtain ⟨m, hm⟩ := processStage_benign sord i s r hs
    obtain ⟨de2, hde2, hlen⟩ := ih (i + 1) (r.add_error m) hrest
    refine ⟨m :: de2, ?_, by simp [hlen]⟩
    unfold processStages
    rw [hm]
    simp only [py_ok_bind]
    rw [hde2]
    simp only [py_ok_bind, py_pure, Except.ok.injEq, Prod.mk.injEq]
    exact ⟨by simp [ValidationResult.add_error], rfl⟩

/-- C10 (amended): the uniqueness pass is emitted whenever `stages` is a
list, no recorded stage name is duplicated, and every entry is processed
without a fatal type error — in particular for an empty `stages` list and
for one whose entries are each a non-mapping or a mapping lacking `name`
with no `platform`/`steps` keys, where each entry yields its own
per-stage error and the uniqueness pass is still added. -/
theorem C10_uniqueness_pass_vacuous (sord : List Yaml → List Yaml)
    (stages : List Yaml) (dn : String) (h : stages.all benignStage = true) :
    ∃ r, validate_pipeline_yaml sord (some (.ok (mkStagesDoc stages)))
        (ValidationResult.init dn) = .ok (r, some (mkStagesDoc stages))
      ∧ msgStagesUnique ∈ r.passes ∧ r.errors.length = stages.length := by
  set rv : ValidationResult :=
    ⟨dn, [], [], [msgPipeValidSyntax, msgPipeVersionPass]⟩ with hrv
  obtain ⟨de, hps, hlen⟩ := processStages_benign sord stages 0 rv h
  refine ⟨(({ rv with errors := rv.errors ++ de }).add_pass
      msgStagesUnique).add_warning msgNoInputs, ?_,
    by simp [ValidationResult.add_warning, ValidationResult.add_pass],
    by simp [ValidationResult.add_warning, ValidationResult.add_pass, hrv, hlen]⟩
  have h1 : validate_pipeline_yaml sord (some (.ok (mkStagesDoc stages)))
      (ValidationResult.init dn)
      = (checkStagesBlock sord (.obj [("stages", Yaml.arr stages)]) rv >>= fun r =>
         checkInputsBlock (.obj [("stages", Yaml.arr stages)]) r >>= fun r =>
         pure (r, some (mkStagesDoc stages))) := rfl
  have h2 : checkStagesBlock sord (.obj [("stages", Yaml.arr stages)]) rv
      = (processStages sord 0 stages rv >>= fun rns =>
          if (dupList rns.2).isEmpty then pure (rns.1.add_pass msgStagesUnique)
          else pure (rns.1.add_error
            (msgStageDups (renderSet (sord (dedupPy (dupList rns.2))))))) := rfl
  rw [h1, h2, hps]
  rfl

/-- C10 witness: the amended theorem at a two-entry benign stages list
(an empty mapping and a non-mapping). -/
theorem C10_uniqueness_pass_vacuous_witness :
    stagesC10.all benignStage = true ∧
    ∃ r, validate_pipeline_yaml (fun l => l) (some (.ok (mkStagesDoc stagesC10)))
        (ValidationResult.init "demo") = .ok (r, some (mkStagesDoc stagesC10))
      ∧ msgStagesUnique ∈ r.passes ∧ r.errors.length = stagesC10.length :=
  ⟨by decide, C10_uniqueness_pass_vacuous (fun l => l) stagesC10 "demo" (by decide)⟩

/-- C10 counterexample: a stage that lacks `name` but carries a
non-mapping `platform` value makes the whole validator raise (`TypeError`
on `'os' not in 0`), so no uniqueness pass is recorded — refuting the
claim as stated for stage lists whose entries merely "lack a name". -/
theorem C10_crash_counterexample :
    validate_pipeline_yaml (fun l => l)
      (some (.ok (mkStagesDoc [.obj [("platform", .int 0)]])))
      (ValidationResult.init "demo")
      = .error "TypeError: argument of type int is not iterable" := rfl

/-! ## Claim C1 -/

theorem exit_code_iff (res : List ValidationResult) :
    ((if (!(res.filter fun r => !r.is_valid).isEmpty) = true then (1 : Nat) else 0) = 0
      ↔ ∀ r ∈ res, r.is_valid = true) := by
  cases hb : (res.filter fun r => !r.is_valid).isEmpty
  · simp only [hb, Bool.not_false, if_true]
    constructor
    · intro h; cases h
    · intro hall
      exfalso
      have hnil : (res.filter fun r => !r.is_valid) = [] := by
        rw [List.filter_eq_nil_iff]
        intro r hr
        simp [hall r hr]
      rw [hnil] at hb
      cases hb
  · simp only [hb, Bool.not_true, Bool.false_eq_true, if_false]
    constructor
    · intro _ r hr
      have hnil := List.isEmpty_iff.mp hb
      rw [List.filter_eq_nil_iff] at hnil
      simpa using hnil r hr
    · intro _; trivial

/-- C1: whenever `main` terminates normally, its exit code is 0 iff every
validated template's result has an empty error sequence, the code is
always 0 or 1, and with zero templates to validate the code is 0 and the
console output contains "No templates found". -/
theorem C1_exit_code (sord : List Yaml → List Yaml) (inputs : List TemplateInput)
    (out : String) (results : List ValidationResult) (code : Nat)
    (hrun : runMain sord inputs = .ok (out, results, code)) :
    (code = 0 ↔ ∀ r ∈ results, r.is_valid = true) ∧
    (code = 0 ∨ code = 1) ∧
    (inputs = [] → code = 0 ∧ subStr ("No templates found".data) out.data = true) := by
  cases inputs with
  | nil =>
    simp only [runMain, List.isEmpty_nil, if_true, py_pure, Except.ok.injEq,
      Prod.mk.injEq] at hrun
    obtain ⟨hout, hres, hcode⟩ := hrun
    subst hout hres hcode
    refine ⟨by simp, Or.inl rfl, fun _ => ⟨rfl, by decide⟩⟩
  | cons t rest =>
    simp only [runMain, List.isEmpty_cons, Bool.false_eq_true, if_false] at hrun
    rw [py_bind_ok] at hrun
    obtain ⟨⟨body, res⟩, hloop, hrun⟩ := hrun
    simp only [py_pure, Except.ok.injEq, Prod.mk.injEq] at hrun
    obtain ⟨-, hres, hcode⟩ := hrun
    subst hres
    refine ⟨?_, ?_, fun hc => absurd hc (by simp)⟩
    · rw [← hcode]
      exact exit_code_iff res
    · rw [← hcode]
      split <;> simp

/-- C1 witness: zero templates found. -/
theorem C1_exit_code_witness :
    ((0 : Nat) = 0 ↔ ∀ r ∈ ([] : List ValidationResult), r.is_valid = true) ∧
    ((0 : Nat) = 0 ∨ (0 : Nat) = 1) ∧
    (([] : List TemplateInput) = [] → (0 : Nat) = 0 ∧
      subStr ("No templates found".data) ("No templates found to validate.\n").data = true) :=
  C1_exit_code (fun l => l) [] "No templates found to validate.\n" [] 0 rfl
